import Mathlib

/-!
Verification development for the `artificialLabor` pipeline (text_to_json →
feasibility_checker → task_executor).  Python strings are embedded as `List Char`,
Python floats as `ℚ` (all numeric literals the claims mention are exactly
representable and the comparisons at issue agree with IEEE semantics on them),
Python dicts as association lists, and fallible code as `Except String`.
External effects (LLM chat calls, subprocess execution) are passed in as
oracle parameters.  Each fixed regular expression used by the source is
embedded as a bespoke scanning function with the exact leftmost / greedy /
lazy semantics of Python's `re` module for that pattern.
-/

/-- Python strings are modelled as lists of characters. -/
abbrev Str := List Char

/-- Build a `Str` from a Lean string literal. -/
def str (s : String) : Str := s.data

/-- The apostrophe character (written via its code point). -/
def apos : Char := Char.ofNat 39

/-- Python `str.isspace` / `re` `\s` white-space set (ASCII part plus the
Unicode white-space code points Python recognises). -/
def pyIsSpace (c : Char) : Bool :=
  c = ' ' || c = '\t' || c = '\n' || c = '\u000b' || c = '\u000c' || c = '\r' ||
  c = '\u001c' || c = '\u001d' || c = '\u001e' || c = '\u001f' ||
  c = '\u0085' || c = ' ' || c = ' ' ||
  (' ' ≤ c && c ≤ ' ') ||
  c = ' ' || c = ' ' || c = ' ' || c = ' ' || c = '　'

/-- Python `str.strip()` with no argument: remove leading and trailing
white space. -/
def pyStrip (s : Str) : Str :=
  ((s.dropWhile pyIsSpace).reverse.dropWhile pyIsSpace).reverse

/-- ASCII lower-casing, matching Python `str.lower()` on the ASCII inputs the
source handles. -/
def lowerChar (c : Char) : Char :=
  if 'A' ≤ c && c ≤ 'Z' then Char.ofNat (c.toNat + 32) else c

/-- Python `str.lower()` (ASCII fragment). -/
def pyLower (s : Str) : Str := s.map lowerChar

/-- Case-insensitive character equality (ASCII). -/
def chEqCI (a b : Char) : Bool := lowerChar a = lowerChar b

/-- Python `needle in hay` substring test. -/
def containsSub (hay needle : Str) : Bool :=
  match hay with
  | [] => needle.isEmpty
  | _ :: rest => needle.isPrefixOf hay || containsSub rest needle

/-- Case-insensitive prefix test. -/
def isPrefixOfCI : Str → Str → Bool
  | [], _ => true
  | _ :: _, [] => false
  | a :: as, b :: bs => chEqCI a b && isPrefixOfCI as bs

/-- First index at which `needle` occurs in `hay` (Python `str.find`,
returning `none` for `-1`). -/
def findSub (hay needle : Str) : Option Nat :=
  match hay with
  | [] => if needle.isEmpty then some 0 else none
  | _ :: rest =>
    if needle.isPrefixOf hay then some 0
    else (findSub rest needle).map (· + 1)

/-- First index of a character satisfying `p` (e.g. Python `str.find` for a
single character). -/
def findChar (p : Char → Bool) : Str → Option Nat
  | [] => none
  | c :: rest => if p c then some 0 else (findChar p rest).map (· + 1)

/-- Python `str.replace(old, new)`, fueled: replace every non-overlapping
occurrence, scanning left to right.  A recursion step always consumes at
least one character, so fuel equal to the input length is never exhausted
(at zero fuel the input is already empty). -/
def pyReplaceGo : Nat → Str → Str → Str → Str
  | 0, s, _, _ => s
  | _ + 1, [], _, _ => []
  | fuel + 1, c :: rest, old, new =>
    if !old.isEmpty && old.isPrefixOf (c :: rest) then
      new ++ pyReplaceGo fuel ((c :: rest).drop old.length) old new
    else
      c :: pyReplaceGo fuel rest old new

/-- Python `str.replace(old, new)`. -/
def pyReplace (s old new : Str) : Str := pyReplaceGo s.length s old new

/-- Python `text.split(sep)` for a single-character separator (used by the
source only with `'\n'`). -/
def pySplitOn (sep : Char) (s : Str) : List Str :=
  match s with
  | [] => [[]]
  | c :: rest =>
    let tail := pySplitOn sep rest
    if c = sep then [] :: tail
    else
      match tail with
      | [] => [[c]]
      | h :: t => (c :: h) :: t

/-- Python `sep.join(parts)`. -/
def pyJoin (sep : Str) : List Str → Str
  | [] => []
  | [x] => x
  | x :: y :: t => x ++ sep ++ pyJoin sep (y :: t)

/-- Python `lst[-n:]`. -/
def lastN (n : Nat) (l : List Str) : List Str := l.drop (l.length - n)

/-- Length of the maximal white-space run at the head of the string
(how much a greedy `\s*` consumes). -/
def wsRun : Str → Nat
  | [] => 0
  | c :: rest => if pyIsSpace c then wsRun rest + 1 else 0

/-- Length of the maximal digit run at the head of the string
(greedy `[0-9]+` / `\d+`). -/
def digitRun : Str → Nat
  | [] => 0
  | c :: rest => if '0' ≤ c && c ≤ '9' then digitRun rest + 1 else 0

/-- Python word character (`\w`, ASCII fragment: letters, digits, underscore). -/
def isWordChar (c : Char) : Bool :=
  ('a' ≤ c && c ≤ 'z') || ('A' ≤ c && c ≤ 'Z') || ('0' ≤ c && c ≤ '9') || c = '_'

/-- Length of the maximal `\w+` run at the head of the string. -/
def wordRun : Str → Nat
  | [] => 0
  | c :: rest => if isWordChar c then wordRun rest + 1 else 0

/-!
## Python values

A small model of the Python values flowing through the pipeline: `json.loads`
results, job dictionaries and feasibility assessments.  Numbers are rationals
(covering the ints and the decimal float literals involved).
-/

/-- Model of a Python value (JSON-shaped). -/
inductive PyVal where
  | none : PyVal
  | bool : Bool → PyVal
  | num : ℚ → PyVal
  | str : Str → PyVal
  | list : List PyVal → PyVal
  | dict : List (Str × PyVal) → PyVal

mutual

/-- Decidable equality for `PyVal` (hand-rolled: the derive handler does not
support this nested inductive). -/
def PyVal.decEq : (a b : PyVal) → Decidable (a = b)
  | .none, .none => isTrue rfl
  | .bool a, .bool b =>
    if h : a = b then isTrue (by rw [h]) else isFalse (fun e => h (by injection e))
  | .num a, .num b =>
    if h : a = b then isTrue (by rw [h]) else isFalse (fun e => h (by injection e))
  | .str a, .str b =>
    if h : a = b then isTrue (by rw [h]) else isFalse (fun e => h (by injection e))
  | .list a, .list b =>
    match PyVal.decEqL a b with
    | isTrue h => isTrue (by rw [h])
    | isFalse h => isFalse (fun e => h (by injection e))
  | .dict a, .dict b =>
    match PyVal.decEqD a b with
    | isTrue h => isTrue (by rw [h])
    | isFalse h => isFalse (fun e => h (by injection e))
  | .none, .bool _ => isFalse (fun h => PyVal.noConfusion h)
  | .none, .num _ => isFalse (fun h => PyVal.noConfusion h)
  | .none, .str _ => isFalse (fun h => PyVal.noConfusion h)
  | .none, .list _ => isFalse (fun h => PyVal.noConfusion h)
  | .none, .dict _ => isFalse (fun h => PyVal.noConfusion h)
  | .bool _, .none => isFalse (fun h => PyVal.noConfusion h)
  | .bool _, .num _ => isFalse (fun h => PyVal.noConfusion h)
  | .bool _, .str _ => isFalse (fun h => PyVal.noConfusion h)
  | .bool _, .list _ => isFalse (fun h => PyVal.noConfusion h)
  | .bool _, .dict _ => isFalse (fun h => PyVal.noConfusion h)
  | .num _, .none => isFalse (fun h => PyVal.noConfusion h)
  | .num _, .bool _ => isFalse (fun h => PyVal.noConfusion h)
  | .num _, .str _ => isFalse (fun h => PyVal.noConfusion h)
  | .num _, .list _ => isFalse (fun h => PyVal.noConfusion h)
  | .num _, .dict _ => isFalse (fun h => PyVal.noConfusion h)
  | .str _, .none => isFalse (fun h => PyVal.noConfusion h)
  | .str _, .bool _ => isFalse (fun h => PyVal.noConfusion h)
  | .str _, .num _ => isFalse (fun h => PyVal.noConfusion h)
  | .str _, .list _ => isFalse (fun h => PyVal.noConfusion h)
  | .str _, .dict _ => isFalse (fun h => PyVal.noConfusion h)
  | .list _, .none => isFalse (fun h => PyVal.noConfusion h)
  | .list _, .bool _ => isFalse (fun h => PyVal.noConfusion h)
  | .list _, .num _ => isFalse (fun h => PyVal.noConfusion h)
  | .list _, .str _ => isFalse (fun h => PyVal.noConfusion h)
  | .list _, .dict _ => isFalse (fun h => PyVal.noConfusion h)
  | .dict _, .none => isFalse (fun h => PyVal.noConfusion h)
  | .dict _, .bool _ => isFalse (fun h => PyVal.noConfusion h)
  | .dict _, .num _ => isFalse (fun h => PyVal.noConfusion h)
  | .dict _, .str _ => isFalse (fun h => PyVal.noConfusion h)
  | .dict _, .list _ => isFalse (fun h => PyVal.noConfusion h)

/-- Decidable equality for lists of `PyVal`. -/
def PyVal.decEqL : (a b : List PyVal) → Decidable (a = b)
  | [], [] => isTrue rfl
  | [], _ :: _ => isFalse (fun h => List.noConfusion h)
  | _ :: _, [] => isFalse (fun h => List.noConfusion h)
  | x :: xs, y :: ys =>
    match PyVal.decEq x y with
    | isFalse h => isFalse (fun e => h (by injection e))
    | isTrue h1 =>
      match PyVal.decEqL xs ys with
      | isTrue h2 => isTrue (by rw [h1, h2])
      | isFalse h => isFalse (fun e => h (by injection e))

/-- Decidable equality for dict entry lists. -/
def PyVal.decEqD : (a b : List (Str × PyVal)) → Decidable (a = b)
  | [], [] => isTrue rfl
  | [], _ :: _ => isFalse (fun h => List.noConfusion h)
  | _ :: _, [] => isFalse (fun h => List.noConfusion h)
  | (k1, v1) :: xs, (k2, v2) :: ys =>
    if hk : k1 = k2 then
      match PyVal.decEq v1 v2 with
      | isFalse h => isFalse (fun e => by
          apply h
          have := congrArg List.head? e
          simp at this
          exact this.2)
      | isTrue h1 =>
        match PyVal.decEqD xs ys with
        | isTrue h2 => isTrue (by rw [hk, h1, h2])
        | isFalse h => isFalse (fun e => h (by injection e))
    else
      isFalse (fun e => by
        apply hk
        have := congrArg List.head? e
        simp at this
        exact this.1)

end

instance : DecidableEq PyVal := PyVal.decEq

/-- Python dict lookup `d[k]` returning `Option`. -/
def dictGet (d : List (Str × PyVal)) (k : Str) : Option PyVal :=
  match d with
  | [] => Option.none
  | (k', v) :: rest => if k' = k then some v else dictGet rest k

/-- Python `d.get(k, default)`. -/
def dictGetD (d : List (Str × PyVal)) (k : Str) (dflt : PyVal) : PyVal :=
  (dictGet d k).getD dflt

/-- Python truthiness `bool(v)`. -/
def truthy : PyVal → Bool
  | .none => false
  | .bool b => b
  | .num q => decide (q ≠ 0)
  | .str s => !s.isEmpty
  | .list l => !l.isEmpty
  | .dict d => !d.isEmpty

/-- Coerce a Python value to a number for an arithmetic comparison
(`none` for the values on which Python raises `TypeError`).  Booleans count
as `0`/`1`, as in Python. -/
def toNumQ : PyVal → Option ℚ
  | .bool b => some (if b then 1 else 0)
  | .num q => some q
  | _ => Option.none

/-!
## `feasibility_checker.filter_feasible_jobs`

Source (src/feasibility_checker.py, lines 484-502):

    feasible = []
    for job in jobs_with_feasibility:
        feasibility = job.get('feasibility', {})
        if (feasibility.get('is_feasible', False) and
            feasibility.get('confidence', 0) >= min_confidence):
            feasible.append(job)
    return feasible

A job is a Python dict.  `feasibility.get` raises `AttributeError` when the
stored `'feasibility'` value is not a dict, and `>=` raises `TypeError` when
the confidence value is not a number; both are modelled with `Except`.
Python's `and` short-circuits, so a falsy `is_feasible` skips the comparison.
-/

/-- One job dictionary. -/
abbrev Job := List (Str × PyVal)

/-- The loop condition of `filter_feasible_jobs` for a single job. -/
def jobKeep (minConfidence : ℚ) (job : Job) : Except String Bool :=
  match dictGetD job (str "feasibility") (PyVal.dict []) with
  | .dict feas =>
    if !truthy (dictGetD feas (str "is_feasible") (PyVal.bool false)) then
      .ok false
    else
      match toNumQ (dictGetD feas (str "confidence") (PyVal.num 0)) with
      | some q => .ok (minConfidence ≤ q)
      | Option.none => .error "TypeError: unsupported comparison"
  | _ => .error "AttributeError: no attribute get"

/-- `filter_feasible_jobs(jobs_with_feasibility, min_confidence)`. -/
def filterFeasibleJobs (jobs : List Job) (minConfidence : ℚ) :
    Except String (List Job) :=
  match jobs with
  | [] => .ok []
  | j :: rest => do
    let keep ← jobKeep minConfidence j
    let tail ← filterFeasibleJobs rest minConfidence
    pure (if keep then j :: tail else tail)

/-- A job is a well-formed assessed job when its `'feasibility'` entry, if
present, is a dict whose `is_feasible` entry (if present) is a boolean and
whose `confidence` entry (if present) is a number. -/
def assessedJob (job : Job) : Bool :=
  match dictGet job (str "feasibility") with
  | Option.none => true
  | some (.dict feas) =>
    (match dictGet feas (str "is_feasible") with
     | Option.none => true
     | some (.bool _) => true
     | some _ => false) &&
    (match dictGet feas (str "confidence") with
     | Option.none => true
     | some (.num _) => true
     | some _ => false)
  | some _ => false

/-- The selection predicate as the specification states it: the job's
feasibility assessment has `is_feasible` true and `confidence ≥ min_confidence`,
a missing `is_feasible` counting as false and a missing `confidence` as 0. -/
def specKeep (minConfidence : ℚ) (job : Job) : Bool :=
  match dictGet job (str "feasibility") with
  | some (.dict feas) =>
    (match dictGet feas (str "is_feasible") with
     | some (.bool true) => true
     | _ => false) &&
    (match dictGet feas (str "confidence") with
     | some (.num q) => decide (minConfidence ≤ q)
     | _ => decide (minConfidence ≤ 0))
  | _ => false

/-- Boundary test job: feasible with confidence `0.49`. -/
def jobC49 : Job :=
  [(str "title", .str (str "t49")),
   (str "feasibility", .dict
     [(str "is_feasible", .bool true), (str "confidence", .num (mkRat 49 100))])]

/-- Boundary test job: feasible with confidence `0.5`. -/
def jobC50 : Job :=
  [(str "title", .str (str "t50")),
   (str "feasibility", .dict
     [(str "is_feasible", .bool true), (str "confidence", .num (mkRat 1 2))])]

/-- Decidable equality for `Except` (used to evaluate concrete runs). -/
instance exceptDecEq {ε α : Type} [DecidableEq ε] [DecidableEq α] : DecidableEq (Except ε α)
  | .ok a, .ok b =>
    if h : a = b then isTrue (by rw [h]) else isFalse (fun e => h (by injection e))
  | .error a, .error b =>
    if h : a = b then isTrue (by rw [h]) else isFalse (fun e => h (by injection e))
  | .ok _, .error _ => isFalse (fun h => Except.noConfusion h)
  | .error _, .ok _ => isFalse (fun h => Except.noConfusion h)

/-- A job whose feasibility assessment, `is_feasible` entry or `confidence`
entry is missing (the three absence cases of the implicit edge claim). -/
def missingAssessment (job : Job) : Bool :=
  match dictGet job (str "feasibility") with
  | Option.none => true
  | some (.dict feas) =>
    (dictGet feas (str "is_feasible")).isNone ||
    (dictGet feas (str "confidence")).isNone
  | some _ => false

/-- Test job: `is_feasible` true but no `confidence` key. -/
def jobNoConf : Job :=
  [(str "title", .str (str "noconf")),
   (str "feasibility", .dict [(str "is_feasible", .bool true)])]


/-!
## `_extract_json_balanced` (src/feasibility_checker.py lines 153-201 and the
identical copy in src/task_executor.py lines 1353-1394)

The function strips the input, removes markdown code fences when the text
starts with three backticks (two `re.sub` passes embedded below with the
leftmost / greedy semantics of the fixed patterns), finds the first brace and
scans with a depth counter, string mode and an escape flag.
-/

/-- The opening-brace character. -/
def lbrace : Char := '\x7b'

/-- The closing-brace character. -/
def rbrace : Char := '\x7d'

/-- The double-quote character. -/
def dquote : Char := '"'

/-- The backslash character. -/
def bslash : Char := '\\'

/-- Match length of the pattern `^(backtick3)(json)?\s*\n?` at a position
(`(?:json)?` is greedy and never backtracks here because the tail `\s*\n?`
always succeeds; the trailing `\n?` is absorbed by the greedy `\s*` since a
newline is white space). -/
def fenceLen (cs : Str) : Option Nat :=
  if (str "```").isPrefixOf cs then
    let rest := cs.drop 3
    let jn := if (str "json").isPrefixOf rest then 4 else 0
    some (3 + jn + wsRun (rest.drop jn))
  else Option.none

/-- First `re.sub` pass of the fence stripper: delete every occurrence of
the MULTILINE pattern above, scanning left to right; `atLS` records whether
the current position is a line start of the original text (where `^` can
match). -/
def fenceSub1Go : Nat → Str → Bool → Str
  | 0, s, _ => s
  | _ + 1, [], _ => []
  | fuel + 1, c :: rest, atLS =>
    if atLS then
      match fenceLen (c :: rest) with
      | some n =>
        fenceSub1Go fuel ((c :: rest).drop n) (((c :: rest).take n).getLast? = some '\n')
      | Option.none => c :: fenceSub1Go fuel rest (c = '\n')
    else c :: fenceSub1Go fuel rest (c = '\n')

/-- First `re.sub` pass of the fence stripper (a match consumes at least its
three backticks, so fuel equal to the input length is never exhausted). -/
def fenceSub1 (cs : Str) (atLS : Bool) : Str := fenceSub1Go cs.length cs atLS

/-- Index (from the start of the given suffix) of the last newline among its
leading characters, used for the `$` backtracking of the second fence
pattern. -/
def lastNlIdx : Str → Option Nat
  | [] => Option.none
  | c :: rest =>
    match lastNlIdx rest with
    | some i => some (i + 1)
    | Option.none => if c = '\n' then some 0 else Option.none

/-- Match length of the pattern `\n?\s*(backtick3)\s*$` (MULTILINE) at a
position.  The leading `\n?\s*` is forced to the maximal white-space run
(a shorter run would leave a white-space character where the backtick must
be), and the trailing greedy `\s*$` ends either at the end of the string or
at the last newline inside the following white-space run. -/
def fence2Len (cs : Str) : Option Nat :=
  let k := wsRun cs
  if (str "```").isPrefixOf (cs.drop k) then
    let q := k + 3
    let rest := cs.drop q
    let r2 := wsRun rest
    if r2 = rest.length then some (q + r2)
    else
      match lastNlIdx (rest.take r2) with
      | some m => some (q + m)
      | Option.none => Option.none
  else Option.none

def fenceSub2Go : Nat → Str → Str
  | 0, s => s
  | _ + 1, [] => []
  | fuel + 1, c :: rest =>
    match fence2Len (c :: rest) with
    | some n => fenceSub2Go fuel ((c :: rest).drop n)
    | Option.none => c :: fenceSub2Go fuel rest

/-- Second `re.sub` pass of the fence stripper (fueled like the first). -/
def fenceSub2 (cs : Str) : Str := fenceSub2Go cs.length cs

/-- Preprocessing of `_extract_json_balanced`: strip, then remove code fences
when the stripped text starts with three backticks, then strip again. -/
def extractPre (text : Str) : Str :=
  let t := pyStrip text
  if (str "```").isPrefixOf t then pyStrip (fenceSub2 (fenceSub1 t true)) else t

/-- The brace-balancing loop of `_extract_json_balanced`, with the source's
`brace_count` / `in_string` / `escape_next` state; returns the offset of the
character at which the count returns to zero. -/
def balancedScan (cs : Str) (braceCount : Int) (inString escapeNext : Bool) :
    Option Nat :=
  match cs with
  | [] => Option.none
  | c :: rest =>
    if escapeNext then (balancedScan rest braceCount inString false).map (· + 1)
    else if c = bslash then (balancedScan rest braceCount inString true).map (· + 1)
    else if c = dquote then (balancedScan rest braceCount (!inString) false).map (· + 1)
    else if !inString && c = lbrace then
      (balancedScan rest (braceCount + 1) inString false).map (· + 1)
    else if !inString && c = rbrace then
      if braceCount - 1 = 0 then some 0
      else (balancedScan rest (braceCount - 1) inString false).map (· + 1)
    else (balancedScan rest braceCount inString false).map (· + 1)

/-- `_extract_json_balanced(text)`. -/
def extractJsonBalanced (text : Str) : Str :=
  let t := extractPre text
  match findChar (· = lbrace) t with
  | Option.none => []
  | some start =>
    let rest := t.drop start
    match balancedScan rest 0 false false with
    | some i => rest.take (i + 1)
    | Option.none => rest

/-!
Specification side of claim C1, written from the claim's words: depth is
incremented on an opening and decremented on a closing brace only outside
string mode, string mode toggles on each unescaped quote, a backslash
escapes exactly one following character, and the extractor returns the
substring from the first opening brace to the first position where the
depth returns to zero (the whole tail when there is none).
-/

/-- Scanner state of the specification: depth, string mode, pending escape. -/
structure ScanSt where
  depth : Int
  strMode : Bool
  esc : Bool
  deriving DecidableEq

/-- One character of the specification scanner. -/
def scanStep (st : ScanSt) (c : Char) : ScanSt :=
  if st.esc then { st with esc := false }
  else if c = bslash then { st with esc := true }
  else if c = dquote then { st with strMode := !st.strMode }
  else if !st.strMode && c = lbrace then { st with depth := st.depth + 1 }
  else if !st.strMode && c = rbrace then { st with depth := st.depth - 1 }
  else st

/-- Does consuming `c` in state `st` bring the depth back to zero (an
unescaped closing brace outside string mode at depth one)? -/
def closesHere (st : ScanSt) (c : Char) : Bool :=
  !st.esc && !st.strMode && c = rbrace && st.depth = 1

/-- Index of the first character at which the depth returns to zero, phrased
declaratively: pair every character with the state before it (a `scanl`) and
take the first pair satisfying `closesHere`. -/
def firstCloseIdx (cs : Str) : Option Nat :=
  (((List.scanl scanStep (ScanSt.mk 0 false false) cs).zip cs).findIdx?
    fun p => closesHere p.1 p.2)

/-- Specification-side extractor (the claim's description verbatim over the
fence-stripped text). -/
def extractJsonBalancedSpec (text : Str) : Str :=
  let t := extractPre text
  match findChar (· = lbrace) t with
  | Option.none => []
  | some start =>
    let rest := t.drop start
    match firstCloseIdx rest with
    | some i => rest.take (i + 1)
    | Option.none => rest


/-!
## Model of `json.loads`

The standard-library parser used by `_extract_and_parse_json`.  The model
covers the JSON grammar the pipeline exchanges: objects (duplicate keys
overwrite, first position kept, as in a Python dict), arrays, strings with
the standard escapes, integer / decimal / exponent numbers (as rationals),
and the three keyword literals.  The float specials `NaN` / `Infinity` and
surrogate-pair escapes lie outside the rational model and are rejected, and
error message texts are abstracted — the source only interpolates them into
the repair prompt.  Recursion is bounded by a fuel parameter set by the
entry point to twice the input length plus a constant, which the call depth
(one unit per grammar step, each step consuming at least one character every
two levels) can never exceed. -/

/-- JSON inter-token white space accepted by `json.loads`. -/
def jsonWs (c : Char) : Bool := c = ' ' || c = '\t' || c = '\n' || c = '\r'

/-- Skip JSON white space. -/
def jsonSkipWs (s : Str) : Str := s.dropWhile jsonWs

/-- Insert a key into an object under construction, overwriting an existing
entry in place (Python dict semantics). -/
def dictSet (d : List (Str × PyVal)) (k : Str) (v : PyVal) : List (Str × PyVal) :=
  match d with
  | [] => [(k, v)]
  | (k0, v0) :: rest => if k0 = k then (k0, v) :: rest else (k0, v0) :: dictSet rest k v

/-- Length of the maximal run of characters satisfying `p`. -/
def charRun (p : Char → Bool) : Str → Nat
  | [] => 0
  | c :: rest => if p c then charRun p rest + 1 else 0

/-- Value of a hexadecimal digit. -/
def hexVal (c : Char) : Option Nat :=
  if '0' ≤ c && c ≤ '9' then some (c.toNat - 48)
  else if 'a' ≤ c && c ≤ 'f' then some (c.toNat - 87)
  else if 'A' ≤ c && c ≤ 'F' then some (c.toNat - 55)
  else Option.none

/-- Is this an ASCII digit? -/
def isDigit (c : Char) : Bool := '0' ≤ c && c ≤ '9'

/-- Numeric value of a digit string (most significant first). -/
def digitsToNat (s : Str) : Nat := s.foldl (fun a c => a * 10 + (c.toNat - 48)) 0

/-- Decode a one-character JSON escape. -/
def escChar (e : Char) : Option Char :=
  if e = dquote then some dquote
  else if e = bslash then some bslash
  else if e = '/' then some '/'
  else if e = 'b' then some (Char.ofNat 8)
  else if e = 'f' then some (Char.ofNat 12)
  else if e = 'n' then some '\n'
  else if e = 'r' then some '\r'
  else if e = 't' then some '\t'
  else Option.none

/-- Parse the remainder of a JSON string literal (after the opening quote),
returning the decoded characters and the rest of the input. -/
def jsonParseStr : Str → Except String (Str × Str)
  | [] => .error "Unterminated string"
  | c :: rest =>
    if c = dquote then .ok ([], rest)
    else if c = bslash then
      match rest with
      | [] => .error "Unterminated string"
      | e :: rest2 =>
        if e = 'u' then
          match rest2 with
          | h1 :: h2 :: h3 :: h4 :: rest3 =>
            match hexVal h1, hexVal h2, hexVal h3, hexVal h4 with
            | some a, some b, some c2, some d =>
              match jsonParseStr rest3 with
              | .ok (s, r) => .ok (Char.ofNat (((a * 16 + b) * 16 + c2) * 16 + d) :: s, r)
              | .error m => .error m
            | _, _, _, _ => .error "Invalid unicode escape"
          | _ => .error "Invalid unicode escape"
        else
          match escChar e with
          | some ch =>
            match jsonParseStr rest2 with
            | .ok (s, r) => .ok (ch :: s, r)
            | .error m => .error m
          | Option.none => .error "Invalid escape"
    else if c.toNat < 32 then .error "Invalid control character"
    else
      match jsonParseStr rest with
      | .ok (s, r) => .ok (c :: s, r)
      | .error m => .error m

/-- Parse a JSON number starting at the current position, returning its
rational value and the rest of the input. -/
def jsonParseNum (s : Str) : Except String (ℚ × Str) :=
  let (neg, s1) :=
    match s with
    | c :: rest => if c = '-' then (true, rest) else (false, s)
    | [] => (false, s)
  match s1 with
  | [] => .error "Expecting value"
  | d :: _ =>
    if !isDigit d then .error "Expecting value"
    else
      let ir := digitRun s1
      let intLen := if d = '0' then 1 else ir
      let intDigits := s1.take intLen
      let s2 := s1.drop intLen
      let (fracDigits, s3) :=
        match s2 with
        | '.' :: s2b =>
          let fr := digitRun s2b
          if fr = 0 then (([] : Str), s2) else (s2b.take fr, s2b.drop fr)
        | _ => ([], s2)
      let (expVal, s4) : Int × Str :=
        match s3 with
        | c :: s3b =>
          if c = 'e' || c = 'E' then
            let (esign, s3c) :=
              match s3b with
              | c2 :: s3c' =>
                if c2 = '-' then ((-1 : Int), s3c')
                else if c2 = '+' then ((1 : Int), s3c')
                else ((1 : Int), s3b)
              | [] => ((1 : Int), s3b)
            let er := digitRun s3c
            if er = 0 then ((0 : Int), s3)
            else (esign * (digitsToNat (s3c.take er) : Int), s3c.drop er)
          else ((0 : Int), s3)
        | [] => ((0 : Int), s3)
      let mant : Int := (digitsToNat (intDigits ++ fracDigits) : Int)
      let sgn : Int := if neg then -1 else 1
      let e10 : Int := expVal - (fracDigits.length : Int)
      let q : ℚ :=
        if 0 ≤ e10 then mkRat (sgn * mant * (10 ^ e10.toNat : Int)) 1
        else mkRat (sgn * mant) (10 ^ (-e10).toNat)
      .ok (q, s4)

mutual

/-- Parse a JSON value (fueled recursive descent); returns the value and the
unconsumed rest. -/
def jsonParseVal : Nat → Str → Except String (PyVal × Str)
  | 0, _ => .error "Expecting value"
  | fuel + 1, s =>
    let s := jsonSkipWs s
    match s with
    | [] => .error "Expecting value"
    | c :: rest =>
      if c = lbrace then
        let rest1 := jsonSkipWs rest
        match rest1 with
        | c2 :: rest2 =>
          if c2 = rbrace then .ok (.dict [], rest2)
          else jsonParseMembers fuel rest1 []
        | [] => .error "Expecting property name"
      else if c = '[' then
        let rest1 := jsonSkipWs rest
        match rest1 with
        | c2 :: rest2 =>
          if c2 = ']' then .ok (.list [], rest2)
          else jsonParseElems fuel rest1 []
        | [] => .error "Expecting value"
      else if c = dquote then
        match jsonParseStr rest with
        | .ok (cs, r) => .ok (.str cs, r)
        | .error m => .error m
      else if (str "true").isPrefixOf s then .ok (.bool true, s.drop 4)
      else if (str "false").isPrefixOf s then .ok (.bool false, s.drop 5)
      else if (str "null").isPrefixOf s then .ok (.none, s.drop 4)
      else if c = '-' || isDigit c then
        match jsonParseNum s with
        | .ok (q, r) => .ok (.num q, r)
        | .error m => .error m
      else .error "Expecting value"

/-- Parse the members of a JSON object (positioned at a property name). -/
def jsonParseMembers : Nat → Str → List (Str × PyVal) → Except String (PyVal × Str)
  | 0, _, _ => .error "Expecting property name"
  | fuel + 1, s, acc =>
    match s with
    | c :: rest =>
      if c = dquote then
        match jsonParseStr rest with
        | .ok (key, r1) =>
          let r2 := jsonSkipWs r1
          match r2 with
          | ':' :: r3 =>
            match jsonParseVal fuel r3 with
            | .ok (v, r4) =>
              let acc2 := dictSet acc key v
              let r5 := jsonSkipWs r4
              match r5 with
              | ',' :: r6 => jsonParseMembers fuel (jsonSkipWs r6) acc2
              | c2 :: r6 =>
                if c2 = rbrace then .ok (.dict acc2, r6)
                else .error "Expecting delimiter"
              | [] => .error "Expecting delimiter"
            | .error m => .error m
          | _ => .error "Expecting colon"
        | .error m => .error m
      else .error "Expecting property name"
    | [] => .error "Expecting property name"

/-- Parse the elements of a JSON array (positioned at a value). -/
def jsonParseElems : Nat → Str → List PyVal → Except String (PyVal × Str)
  | 0, _, _ => .error "Expecting value"
  | fuel + 1, s, acc =>
    match jsonParseVal fuel s with
    | .ok (v, r1) =>
      let r2 := jsonSkipWs r1
      match r2 with
      | ',' :: r3 => jsonParseElems fuel r3 (acc ++ [v])
      | ']' :: r3 => .ok (.list (acc ++ [v]), r3)
      | _ => .error "Expecting delimiter"
    | .error m => .error m

end

/-- `json.loads`: a single JSON value covering the whole input. -/
def pyJsonLoads (s : Str) : Except String PyVal :=
  match jsonParseVal (2 * s.length + 4) s with
  | .ok (v, rest) => if (jsonSkipWs rest).isEmpty then .ok v else .error "Extra data"
  | .error m => .error m


/-!
## `_parse_text_response` (src/feasibility_checker.py lines 270-388)

The lenient text scraper used when no JSON can be recovered.  Each regular
expression of the source is embedded as a scanning function with that
pattern's exact leftmost / greedy / lazy / look-ahead semantics (derived
pattern by pattern; the lazy `[^"]*?` captures cannot cross a quote, greedy
`[^:]*` cannot cross a colon, and the combined `\s*\n?\s*` prefix consumes a
white-space run).  `float()` on the matched confidence token is the one
raising operation and is modelled with `Except`.
-/

/-- Leftmost-match search: the first position whose suffix matches `f`
(like `re.search` for the bespoke matchers below, all of which need at least
one character). -/
def scanFirst {α : Type} (f : Str → Option α) : Str → Option α
  | [] => f []
  | c :: rest =>
    match f (c :: rest) with
    | some a => some a
    | Option.none => scanFirst f rest

/-- Match `key` (case-insensitively when `ci`), then `\s*:\s*`; returns the
suffix after the second white-space run. -/
def afterKeyColon (key : Str) (ci : Bool) (s : Str) : Option Str :=
  if (if ci then isPrefixOfCI key s else key.isPrefixOf s) then
    let s1 := s.drop key.length
    let s2 := s1.drop (wsRun s1)
    match s2 with
    | ':' :: s3 => some (s3.drop (wsRun s3))
    | _ => Option.none
  else Option.none

/-- The `(true|false)` group (case-insensitive), `true` tried first. -/
def boolToken (s : Str) : Option Bool :=
  if isPrefixOfCI (str "true") s then some true
  else if isPrefixOfCI (str "false") s then some false
  else Option.none

/-- Matcher for `"is_feasible"\s*:\s*(true|false)` (IGNORECASE). -/
def isFeasPatQ (s : Str) : Option Bool :=
  (afterKeyColon (str "\"is_feasible\"") true s).bind boolToken

/-- Matcher for `is_feasible\s*:\s*(true|false)` (IGNORECASE). -/
def isFeasPatU (s : Str) : Option Bool :=
  (afterKeyColon (str "is_feasible") true s).bind boolToken

/-- After a `feasible` occurrence: can `[^"]*` reach one of `words`
(case-insensitively) without crossing a double quote? -/
def hintScanFrom (words : List Str) : Str → Bool
  | [] => false
  | s@(c :: rest) =>
    words.any (fun w => isPrefixOfCI w s) || (c ≠ dquote && hintScanFrom words rest)

/-- Existence of a match of `feasible[^"]*(?:w1|w2|w3)` (IGNORECASE). -/
def feasibleHint (words : List Str) (text : Str) : Bool :=
  (scanFirst
    (fun s =>
      if isPrefixOfCI (str "feasible") s then
        (if hintScanFrom words (s.drop 8) then some () else Option.none)
      else Option.none)
    text).isSome

/-- The full `is_feasible` extraction cascade; `none` when no pattern
matched (the code then falls through to its conservative `False`). -/
def ptrFeasibleOpt (text : Str) : Option Bool :=
  match scanFirst isFeasPatQ text with
  | some b => some b
  | Option.none =>
    match scanFirst isFeasPatU text with
    | some b => some b
    | Option.none =>
      if feasibleHint [str "false", str "no", str "0"] text then some false
      else if feasibleHint [str "true", str "yes", str "1"] text then some true
      else Option.none

/-- Scraped `is_feasible` value (default `False`). -/
def ptrFeasible (text : Str) : Bool := (ptrFeasibleOpt text).getD false

/-- The `([0-9.]+)` group: maximal run of digits and dots, non-empty. -/
def numToken (s : Str) : Option Str :=
  let r := charRun (fun c => isDigit c || c = '.') s
  if r = 0 then Option.none else some (s.take r)

/-- Matcher for `"confidence"\s*:\s*([0-9.]+)` (IGNORECASE). -/
def confPatQ (s : Str) : Option Str :=
  (afterKeyColon (str "\"confidence\"") true s).bind numToken

/-- Matcher for `confidence\s*:\s*([0-9.]+)` (IGNORECASE). -/
def confPatU (s : Str) : Option Str :=
  (afterKeyColon (str "confidence") true s).bind numToken

/-- The matched confidence token, if any. -/
def ptrConfToken (text : Str) : Option Str :=
  match scanFirst confPatQ text with
  | some t => some t
  | Option.none => scanFirst confPatU text

/-- Python `float()` on a `[0-9.]+` token: defined when the token has at
most one dot and at least one digit; the value is the decimal rational. -/
def pyFloatTok (t : Str) : Option ℚ :=
  let dots := (t.filter (fun c => c = '.')).length
  let digs := (t.filter isDigit).length
  if dots ≤ 1 && 1 ≤ digs then
    let ip := t.takeWhile (fun c => c ≠ '.')
    let fp := (t.dropWhile (fun c => c ≠ '.')).drop 1
    some (mkRat (digitsToNat ip * 10 ^ fp.length + digitsToNat fp) (10 ^ fp.length))
  else Option.none

/-- The `([0-9]+|null)` group (IGNORECASE): digits tried first. -/
def intOrNullToken (s : Str) : Option (Option Nat) :=
  let r := digitRun s
  if r ≠ 0 then some (some (digitsToNat (s.take r)))
  else if isPrefixOfCI (str "null") s then some Option.none
  else Option.none

/-- Matcher for `"estimated_tokens"\s*:\s*([0-9]+|null)` (IGNORECASE). -/
def tokPatQ (s : Str) : Option (Option Nat) :=
  (afterKeyColon (str "\"estimated_tokens\"") true s).bind intOrNullToken

/-- Matcher for `estimated_tokens\s*:\s*([0-9]+|null)` (IGNORECASE). -/
def tokPatU (s : Str) : Option (Option Nat) :=
  (afterKeyColon (str "estimated_tokens") true s).bind intOrNullToken

/-- Matcher for `tokens[^:]*:\s*([0-9]+)` (IGNORECASE): greedy `[^:]*` is
forced to the first colon. -/
def tokPatLoose (s : Str) : Option Nat :=
  if isPrefixOfCI (str "tokens") s then
    let s1 := s.drop 6
    let r := charRun (fun c => c ≠ ':') s1
    match s1.drop r with
    | ':' :: s2 =>
      let s3 := s2.drop (wsRun s2)
      let d := digitRun s3
      if d = 0 then Option.none else some (digitsToNat (s3.take d))
    | _ => Option.none
  else Option.none

/-- The full `estimated_tokens` cascade: `some (some n)` for a number,
`some none` for a literal `null`, `none` when nothing matched. -/
def ptrTokensOpt (text : Str) : Option (Option Nat) :=
  match scanFirst tokPatQ text with
  | some v => some v
  | Option.none =>
    match scanFirst tokPatU text with
    | some v => some v
    | Option.none => (scanFirst tokPatLoose text).map some

/-- Matcher for `"risks"\s*:\s*\[(.*?)\]` (DOTALL, case-sensitive): the lazy
group runs to the first closing bracket. -/
def risksPat (s : Str) : Option Str :=
  (afterKeyColon (str "\"risks\"") false s).bind fun s1 =>
    match s1 with
    | '[' :: s2 =>
      let r := charRun (fun c => c ≠ ']') s2
      if (s2.drop r).isEmpty then Option.none else some (s2.take r)
    | _ => Option.none

def findallQuotedGo : Nat → Str → List Str
  | 0, _ => []
  | _ + 1, [] => []
  | fuel + 1, c :: rest =>
    if c = dquote then
      let r := charRun (fun ch => ch ≠ dquote) rest
      if r ≠ 0 && !(rest.drop r).isEmpty then
        rest.take r :: findallQuotedGo fuel (rest.drop (r + 1))
      else findallQuotedGo fuel rest
    else findallQuotedGo fuel rest

/-- `re.findall(r'"([^"]+)"', s)`: non-overlapping non-empty quoted runs
(fueled, one character per step). -/
def findallQuoted (s : Str) : List Str := findallQuotedGo s.length s

/-- Scraped risk strings (before the non-empty default is applied). -/
def ptrRisks (text : Str) : List Str :=
  match scanFirst risksPat text with
  | some inner => findallQuoted inner
  | Option.none => []

/-- Matcher for `"reasoning"\s*:\s*"\s*\n?\s*([^"]*?)"(?=\s*[,}])` (DOTALL):
the lazy group ends at the first quote, which must be followed by optional
white space and a comma or closing brace. -/
def r1Pat (s : Str) : Option Str :=
  (afterKeyColon (str "\"reasoning\"") false s).bind fun s1 =>
    match s1 with
    | c :: s2 =>
      if c = dquote then
        let w := wsRun s2
        let q := charRun (fun ch => ch ≠ dquote) s2
        if (s2.drop q).isEmpty then Option.none
        else
          let after := s2.drop (q + 1)
          match after.drop (wsRun after) with
          | ch :: _ =>
            if ch = ',' || ch = rbrace then some ((s2.take q).drop w) else Option.none
          | [] => Option.none
      else Option.none
    | [] => Option.none

/-- Matcher for `"reasoning"\s*:\s*"([^"]+)"` (DOTALL). -/
def r2Pat (s : Str) : Option Str :=
  (afterKeyColon (str "\"reasoning\"") false s).bind fun s1 =>
    match s1 with
    | c :: s2 =>
      if c = dquote then
        let q := charRun (fun ch => ch ≠ dquote) s2
        if q = 0 then Option.none
        else if (s2.drop q).isEmpty then Option.none
        else some (s2.take q)
      else Option.none
    | [] => Option.none

/-- Matcher for `"reasoning"\s*:\s*"""([^"]*?)"""`. -/
def r3Pat (s : Str) : Option Str :=
  (afterKeyColon (str "\"reasoning\"") false s).bind fun s1 =>
    if (str "\"\"\"").isPrefixOf s1 then
      let s2 := s1.drop 3
      let q := charRun (fun ch => ch ≠ dquote) s2
      if (str "\"\"\"").isPrefixOf (s2.drop q) then some (s2.take q) else Option.none
    else Option.none

/-- The look-ahead `(?=\s*"[a-z_]+\s*:\s*|\s*[,}])` (IGNORECASE). -/
def r4Look (s : Str) : Bool :=
  match s.drop (wsRun s) with
  | c :: rest2 =>
    if c = ',' || c = rbrace then true
    else if c = dquote then
      let r := charRun (fun ch => ('a' ≤ lowerChar ch && lowerChar ch ≤ 'z') || ch = '_') rest2
      if r = 0 then false
      else
        let rest3 := rest2.drop r
        match rest3.drop (wsRun rest3) with
        | ':' :: _ => true
        | _ => false
    else false
  | [] => false

/-- Smallest end offset (not crossing a quote) at which the look-ahead
holds — the lazy `([^"]*?)` of the fourth reasoning pattern. -/
def r4FindE : Str → Option Nat
  | [] => if r4Look [] then some 0 else Option.none
  | s@(c :: rest) =>
    if r4Look s then some 0
    else if c = dquote then Option.none
    else (r4FindE rest).map (· + 1)

/-- Matcher for
`"reasoning"\s*:\s*["\']?\s*\n?\s*([^"]*?)(?=\s*"[a-z_]+\s*:\s*|\s*[,}])`
(DOTALL | IGNORECASE): the optional opening quote is consumed greedily, the
quote-free lazy group stops at the first position satisfying the look-ahead. -/
def r4Pat (s : Str) : Option Str :=
  (afterKeyColon (str "\"reasoning\"") true s).bind fun s1 =>
    let viaQuote : Option Str :=
      match s1 with
      | c :: s2 =>
        if c = dquote || c = apos then
          let cap := s2.drop (wsRun s2)
          (r4FindE cap).map (cap.take ·)
        else Option.none
      | [] => Option.none
    match viaQuote with
    | some g => some g
    | Option.none => (r4FindE s1).map (s1.take ·)

/-- Matcher for `reasoning[^:]*:\s*(.{100,500})` (DOTALL | IGNORECASE). -/
def r5Pat (s : Str) : Option Str :=
  if isPrefixOfCI (str "reasoning") s then
    let s1 := s.drop 9
    let r := charRun (fun c => c ≠ ':') s1
    match s1.drop r with
    | ':' :: s2 =>
      let s3 := s2.drop (wsRun s2)
      if 100 ≤ s3.length then some (s3.take 500) else Option.none
    | _ => Option.none
  else Option.none

/-- Strip a leading and a trailing run of quotes and apostrophes
(`re.sub(r'^["\x27]+|["\x27]+$', '', s)`). -/
def stripQuoteEnds (s : Str) : Str :=
  let isQ := fun c => c = dquote || c = apos
  ((s.dropWhile isQ).reverse.dropWhile isQ).reverse

/-- The reasoning extraction cascade of `_parse_text_response`, including
each branch's own post-processing, before the final newline normalisation. -/
def ptrReasoningRaw (text : Str) : Str :=
  match scanFirst r1Pat text with
  | some g => pyStrip g
  | Option.none =>
    match scanFirst r2Pat text with
    | some g => g
    | Option.none =>
      match scanFirst r3Pat text with
      | some g => pyStrip g
      | Option.none =>
        match scanFirst r4Pat text with
        | some g => stripQuoteEnds (pyStrip g)
        | Option.none =>
          match scanFirst r5Pat text with
          | some g => (pyStrip g).take 500
          | Option.none => str "Extracted from LLM response: " ++ text.take 400

/-- Python `str.split()` with no argument: white-space-run tokenisation. -/
def pySplitWsAux : Str → Str → List Str
  | [], tok => if tok.isEmpty then [] else [tok.reverse]
  | c :: rest, tok =>
    if pyIsSpace c then
      if tok.isEmpty then pySplitWsAux rest []
      else tok.reverse :: pySplitWsAux rest []
    else pySplitWsAux rest (c :: tok)

/-- Python `str.split()` with no argument. -/
def pySplitWs (s : Str) : List Str := pySplitWsAux s []

/-- The final reasoning clean-up: newlines, carriage returns and tabs become
spaces, then white space is normalised by `' '.join(s.split())`. -/
def normalizeReasoning (s : Str) : Str :=
  pyJoin (str " ")
    (pySplitWs (s.map fun c => if c = '\n' || c = '\r' || c = '\t' then ' ' else c))

/-- Scraped confidence value when `float()` does not raise (missing token:
0.3 when feasible was scraped true, 0.2 otherwise). -/
def ptrConfidenceVal (text : Str) : ℚ :=
  match ptrConfToken text with
  | some tok => (pyFloatTok tok).getD 0
  | Option.none => if ptrFeasible text then mkRat 3 10 else mkRat 2 10

/-- Scraped `estimated_tokens` value (`None` on a literal `null` or when
nothing matched). -/
def ptrTokensVal (text : Str) : PyVal :=
  match ptrTokensOpt text with
  | some (some n) => .num n
  | some Option.none => .none
  | Option.none => .none

/-- Scraped risks with the non-empty default applied. -/
def ptrRisksFinal (text : Str) : List PyVal :=
  (if (ptrRisks text).isEmpty then [str "Extracted via text parsing"]
   else ptrRisks text).map PyVal.str

/-- The five-field dictionary `_parse_text_response` returns. -/
def ptrDict (text : Str) : PyVal :=
  .dict
    [(str "is_feasible", .bool (ptrFeasible text)),
     (str "confidence", .num (ptrConfidenceVal text)),
     (str "reasoning", .str (normalizeReasoning (ptrReasoningRaw text))),
     (str "estimated_tokens", ptrTokensVal text),
     (str "risks", .list (ptrRisksFinal text))]

/-- `_parse_text_response(text)`: `Except` captures the `ValueError` that
`float()` raises on a malformed matched confidence token; otherwise the
five-field dictionary is returned. -/
def parseTextResponse (text : Str) : Except String PyVal :=
  match ptrConfToken text with
  | some tok =>
    if (pyFloatTok tok).isSome then .ok (ptrDict text)
    else .error "ValueError: could not convert string to float"
  | Option.none => .ok (ptrDict text)

/-!
## `_extract_and_parse_json` (src/feasibility_checker.py lines 204-267)

Brace-balanced extraction, four quick textual fixes, `json.loads`, an
LLM repair pass (the model call is the `oracle` parameter, whose failure is
a caught exception), and the text-scraper fallback.  The unused
`original_prompt` parameter of the source only feeds console logging and is
omitted; likewise the `print` logging.
-/

def subCommaCloseGo : Nat → Char → Str → Str
  | 0, _, s => s
  | _ + 1, _, [] => []
  | fuel + 1, close, c :: rest =>
    if c = ',' then
      let k := wsRun rest
      match rest.drop k with
      | c2 :: _ =>
        if c2 = close then close :: subCommaCloseGo fuel close (rest.drop (k + 1))
        else c :: subCommaCloseGo fuel close rest
      | [] => c :: subCommaCloseGo fuel close rest
    else c :: subCommaCloseGo fuel close rest

/-- `re.sub(r',\s*X', 'X')` (the fuel is never exhausted: a step consumes at
least one character). -/
def subCommaClose (close : Char) (s : Str) : Str := subCommaCloseGo s.length close s

/-- The repair prompt built around the failed JSON string and the parse
error message (truncated to 100 characters). -/
def repairPrompt (jsonStr : Str) (err : String) : Str :=
  str "The following JSON is invalid. Fix it to be valid JSON only. Return ONLY the corrected JSON object, no markdown, no explanation:\n\n" ++
  jsonStr ++
  str "\n\nOriginal error: " ++ err.data.take 100 ++
  str "\n\nReturn ONLY valid JSON matching this structure:\n\x7b\n  \"is_feasible\": true or false,\n  \"confidence\": 0.0-1.0,\n  \"reasoning\": \"1-2 sentences, no newlines\",\n  \"estimated_tokens\": number (REQUIRED - always provide, even if not feasible),\n  \"risks\": [\"max 3 items\"]\n\x7d"

/-- `_extract_and_parse_json(response_text, ...)`; `oracle` is the
`_call_local_llm` interface (`.error` = the call raised). -/
def extractAndParseJson (oracle : Str → Except String Str) (responseText : Str) :
    Except String PyVal :=
  let jsonStr := extractJsonBalanced responseText
  if jsonStr.isEmpty then parseTextResponse responseText
  else
    let j1 := pyReplace jsonStr (str "\"\"\"") (str "\"")
    let j2 := pyReplace j1 [apos, apos, apos] [apos]
    let j3 := subCommaClose rbrace j2
    let j4 := subCommaClose ']' j3
    match pyJsonLoads j4 with
    | .ok v => .ok v
    | .error e =>
      match oracle (repairPrompt j4 e) with
      | .ok repairedResponse =>
        let repairedJson := extractJsonBalanced repairedResponse
        if !repairedJson.isEmpty then
          match pyJsonLoads repairedJson with
          | .ok v => .ok v
          | .error _ => parseTextResponse responseText
        else parseTextResponse responseText
      | .error _ => parseTextResponse responseText


/-!
## `check_job_feasibility` (src/feasibility_checker.py lines 38-150)

Field normalisation (`get_field` tries key variants and keeps the first
truthy value), the assessor prompt (built verbatim from the source's
f-string), the model call, `_extract_and_parse_json`, coercion of the result
fields, and the catch-all error handler that returns the conservative
not-feasible assessment.  `str()` rendering of non-string, non-integer
Python values inside the prompt (float formatting, container reprs) is
approximated — it only feeds prompt text handed to the oracle.
-/

/-- An LLM-call oracle that always raises. -/
def oracleErr : Str → Except String Str := fun _ => .error "LLM unavailable"

/-- `get_field(job, *keys)`: the first key present with a truthy value. -/
def getField (job : Job) : List Str → PyVal
  | [] => .none
  | k :: rest =>
    match dictGet job k with
    | some v => if truthy v then v else getField job rest
    | Option.none => getField job rest

mutual

/-- Python `str()` rendering of a value (exact for the strings, booleans,
`None` and integers that reach the prompt; approximated for other floats
and for containers, whose exact repr formatting is immaterial oracle
input). -/
def pyStr : PyVal → Str
  | .none => str "None"
  | .bool true => str "True"
  | .bool false => str "False"
  | .num q =>
    if q.den = 1 then
      (if q.num < 0 then ['-'] else []) ++ (str (toString q.num.natAbs))
    else str (toString q.num) ++ ['/'] ++ str (toString q.den)
  | .str s => s
  | .list l => ['['] ++ pyStrList l ++ [']']
  | .dict d => [lbrace] ++ pyStrDict d ++ [rbrace]

/-- Comma-joined renderings of list elements. -/
def pyStrList : List PyVal → Str
  | [] => []
  | [v] => pyStr v
  | v :: w :: t => pyStr v ++ str ", " ++ pyStrList (w :: t)

/-- Comma-joined renderings of dict entries. -/
def pyStrDict : List (Str × PyVal) → Str
  | [] => []
  | [(k, v)] => k ++ str ": " ++ pyStr v
  | (k, v) :: e :: t => k ++ str ": " ++ pyStr v ++ str ", " ++ pyStrDict (e :: t)

end

/-- `x or 'N/A'` for a `get_field` result. -/
def orNA (v : PyVal) : Str := if truthy v then pyStr v else str "N/A"

/-- `', '.join(xs)`: TypeError unless every element is a string (a plain
string joins its characters). -/
def pyJoinComma : PyVal → Except String Str
  | .str s => .ok (pyJoin (str ", ") (s.map fun c => [c]))
  | .list l => do
    let parts ← l.mapM fun v =>
      match v with
      | .str s => Except.ok s
      | _ => Except.error "TypeError: sequence item: expected str instance"
    pure (pyJoin (str ", ") parts)
  | _ => .error "TypeError: can only join an iterable"

/-- `{xs_join if xs else 'N/A'}` for the requirements / deliverables lines. -/
def joinOrNA (v : PyVal) : Except String Str :=
  if truthy v then pyJoinComma v else .ok (str "N/A")

/-- The literal segments of the `job_details` f-string. -/
def jobDetailSegs : List Str :=
  [str "Title: ",
   str "\nStatus: ",
   str "\nPosted: ",
   str "\nEnds: ",
   str "\nBudget: ",
   str "\nPayment Terms: ",
   str "\nExperience Level: ",
   str "\nDescription: ",
   str "\nRequirements: ",
   str "\nDeliverables: ",
   str ""]

/-- The assessor prompt text before the interpolated job details. -/
def promptPre : Str := str "You are a Task Assessor for an automated freelancing system. Evaluate this job posting to determine if it can be profitably completed by an LLM-based agent with access to tools (Python libraries, APIs, file processing, etc.).\n\n"

/-- The assessor prompt text after the interpolated job details. -/
def promptPost : Str := str "\n\nAssess:\n1. FEASIBILITY: Can an LLM agent complete this task using available tools? Be selective - only mark feasible if:\n   - The task is straightforward and well-defined (data entry, file conversion, basic analysis)\n   - Tools exist and are reliable (pandas for Excel, pdfplumber for PDFs, openpyxl for spreadsheets)\n   - Minimal ambiguity or judgment required\n   - NOT feasible if: requires complex human judgment, creative design, iterative client feedback, or unclear requirements\n2. CONFIDENCE: Use varied confidence scores (0.5-0.9 range):\n   - 0.9+ only for very straightforward, well-defined tasks with clear tools\n   - 0.7-0.8 for tasks that are doable but have some complexity/risks\n   - 0.5-0.6 for borderline cases that might work but have significant challenges\n   - Lower for tasks with ambiguity or high risk\n3. COST: ALWAYS estimate total tokens required (even if not feasible). Consider:\n   - Reading/parsing input files\n   - Processing data\n   - Generating outputs (code, documents, visualizations, etc.)\n   - Any iterative refinement needed\n   If not feasible, estimate tokens for what WOULD be attempted before failure.\n\nReturn ONLY valid JSON (no markdown, no code fences, no extra text):\n\x7b\n  \"is_feasible\": true or false,\n  \"confidence\": 0.0-1.0 (use varied scores, not always 0.95),\n  \"reasoning\": \"1-2 sentence explanation. No newlines inside this string.\",\n  \"estimated_tokens\": number (REQUIRED - always provide, even if not feasible),\n  \"risks\": [\"max 3 items\"]\n\x7d\n\nCRITICAL: Output ONLY the JSON object. No markdown fences. No newlines inside string values. Escape all special characters. estimated_tokens is REQUIRED. Use VARIED confidence scores.\n"

/-- The `job_details` f-string: ten literal segments interleaved with the
rendered fields. -/
def jobDetails (fields : List Str) : Str :=
  match jobDetailSegs, fields with
  | segs, fs => (pyJoin [] (List.zipWith (fun a b => a ++ b) segs fs)) ++
      (segs.drop fs.length).foldl (fun a b => a ++ b) []

/-- `result.get(key, default)` on the parsed model response
(`AttributeError` when the result is not a dict). -/
def resultGet (v : PyVal) (k : Str) (dflt : PyVal) : Except String PyVal :=
  match v with
  | .dict d => .ok (dictGetD d k dflt)
  | _ => .error "AttributeError: no attribute get"

/-- Python `float(x)` for the confidence coercion: numbers and booleans
convert, strings parse as a signed decimal (`inf` / `nan` spellings are
outside the rational model), everything else is a `TypeError`. -/
def pyFloatCoerce : PyVal → Except String ℚ
  | .num q => .ok q
  | .bool b => .ok (if b then 1 else 0)
  | .str s =>
    let t := pyStrip s
    let (sgn, t1) : Int × Str :=
      match t with
      | c :: rest =>
        if c = '-' then (-1, rest) else if c = '+' then (1, rest) else (1, t)
      | [] => (1, t)
    match pyFloatTok t1 with
    | some q => .ok (sgn * q)
    | Option.none => .error "ValueError: could not convert string to float"
  | _ => .error "TypeError: float() argument"

/-- The feasibility assessment record `check_job_feasibility` returns. -/
structure Assessment where
  is_feasible : Bool
  confidence : ℚ
  reasoning : Str
  estimated_tokens : PyVal
  risks : PyVal
  llm_prompt : Str
  llm_response : Str
  deriving DecidableEq

/-- The conservative assessment returned from the exception handler. -/
def errorAssessment (msg : String) : Assessment where
  is_feasible := false
  confidence := mkRat 2 10
  reasoning := str "Error during assessment: " ++ msg.data
  estimated_tokens := .none
  risks := .list [.str (str "Assessment error occurred")]
  llm_prompt := []
  llm_response := []

/-- The body of `check_job_feasibility`'s `try` block; any `.error` is an
exception reaching the handler. -/
def checkBody (oracle : Str → Except String Str) (job : Job) :
    Except String Assessment := do
  let title := getField job [str "title", str "title "]
  let status := getField job [str "status", str "status "]
  let posted := getField job [str "posted_time", str "posted_time ", str "posted"]
  let ends := getField job [str "ends_time", str "ends_time ", str "ends_in"]
  let budget := getField job [str "budget", str "budget ", str "rate"]
  let payment := getField job [str "payment_terms", str "payment_terms "]
  let expLevel := getField job [str "experience_level", str "experience_level "]
  let description := getField job [str "description", str "description "]
  let requirements :=
    match getField job [str "requirements", str "requirements "] with
    | .none => .list []
    | v => v
  let deliverables :=
    match getField job [str "deliverables", str "deliverables "] with
    | .none => .list []
    | v => v
  let reqLine ← joinOrNA requirements
  let delLine ← joinOrNA deliverables
  let jd := jobDetails
    [orNA title, orNA status, orNA posted, orNA ends, orNA budget,
     orNA payment, orNA expLevel, orNA description, reqLine, delLine]
  let prompt := promptPre ++ jd ++ promptPost
  let responseText ← oracle prompt
  let result ← extractAndParseJson oracle responseText
  let isfV ← resultGet result (str "is_feasible") (.bool false)
  let confV ← resultGet result (str "confidence") (.num (mkRat 1 2))
  let conf ← pyFloatCoerce confV
  let reasonV ← resultGet result (str "reasoning") (.str (responseText.take 500))
  let tokens ← resultGet result (str "estimated_tokens") .none
  let risks ← resultGet result (str "risks") (.list [])
  pure
    { is_feasible := truthy isfV
      confidence := conf
      reasoning := pyStr reasonV
      estimated_tokens := tokens
      risks := risks
      llm_prompt := prompt
      llm_response := responseText }

/-- `check_job_feasibility(job)`: the `try` body with the catch-all
conservative fallback. -/
def checkJobFeasibility (oracle : Str → Except String Str) (job : Job) :
    Assessment :=
  match checkBody oracle job with
  | .ok a => a
  | .error e => errorAssessment e

/-- The newline character. -/
def nl : Char := '\n'

/-- Word boundary before a word character: start of text or a preceding
non-word character. -/
def atWB : Option Char → Bool
  | Option.none => true
  | some c => !isWordChar c

/-- Existence scan carrying the previous character (for `\b`). -/
def scanExists (f : Option Char → Str → Bool) : Option Char → Str → Bool
  | prev, [] => f prev []
  | prev, c :: rest => f prev (c :: rest) || scanExists f (some c) rest

/-- Word boundary after: end of text or a following non-word character. -/
def wbAfter : Str → Bool
  | [] => true
  | c :: _ => !isWordChar c

/-- `re.search(r'\bjson\.(load|dump|loads|dumps)\b', s)`. -/
def jsonUseFound (s : Str) : Bool :=
  scanExists
    (fun prev t =>
      atWB prev && (str "json.").isPrefixOf t &&
      ([str "loads", str "dumps", str "load", str "dump"].any fun w =>
        w.isPrefixOf (t.drop 5) && wbAfter ((t.drop 5).drop w.length)))
    Option.none s

/-- `re.search(r'\bP\.|Q\.', s)` for a short alias `P` (with `\b`) and a full
module name `Q` (without). -/
def aliasUseFound (ali full : Str) (s : Str) : Bool :=
  scanExists
    (fun prev t => (atWB prev && ali.isPrefixOf t) || full.isPrefixOf t)
    Option.none s

/-- `re.search(r'\.to_excel\(|openpyxl', s)`. -/
def excelUseFound (s : Str) : Bool :=
  scanExists
    (fun _ t => (str ".to_excel(").isPrefixOf t || (str "openpyxl").isPrefixOf t)
    Option.none s

/-- `re.search(r'\bPath\b', s)`. -/
def pathUseFound (s : Str) : Bool :=
  scanExists
    (fun prev t =>
      atWB prev && (str "Path").isPrefixOf t && wbAfter (t.drop 4))
    Option.none s

/-- `re.search(r'\bM\.(w1|w2|...)', s)`: a dotted module access followed by
one of the listed attribute names (no trailing boundary). -/
def dottedUseFound (m : Str) (words : List Str) (s : Str) : Bool :=
  scanExists
    (fun prev t =>
      atWB prev && m.isPrefixOf t &&
      (words.any fun w => w.isPrefixOf (t.drop m.length)))
    Option.none s

/-- The lines of a string with their absolute start offsets (the positions
where a MULTILINE `^` can match). -/
def linesWithPos (s : Str) : List (Nat × Str) :=
  let rec go : Nat → List Str → List (Nat × Str)
    | _, [] => []
    | p, l :: rest => (p, l) :: go (p + l.length + 1) rest
  go 0 (pySplitOn '\n' s)

/-- Largest start index `j ≥ 1` of an occurrence of `pat` in `hay` (the
greedy `.+` before a trailing literal). -/
def lastOccGe1 (hay pat : Str) : Option Nat :=
  ((List.range (hay.length + 1)).filter
    (fun j => 1 ≤ j && pat.isPrefixOf (hay.drop j))).getLast?

/-- Match end (relative to the line start) of
`^(import |from .+ import )` on one line. -/
def lineImportEnd (line : Str) : Option Nat :=
  if (str "import ").isPrefixOf line then some 7
  else if (str "from ").isPrefixOf line then
    match lastOccGe1 (line.drop 5) (str " import ") with
    | some j => some (5 + j + 8)
    | Option.none => Option.none
  else Option.none

/-- Absolute match ends of `^(import |from .+ import )` (MULTILINE). -/
def importLineEnds (script : Str) : List Nat :=
  (linesWithPos script).filterMap fun pl => (lineImportEnd pl.2).map (pl.1 + ·)

/-- `'\n'.join(xs)`. -/
def joinNl (xs : List Str) : Str := pyJoin [nl] xs

/-- The import-insertion tail of `_repair_script`: add the needed import
lines after the last import, after a shebang/docstring, or at the top. -/
def insertImports (script : Str) (needed : List Str) : Str :=
  if needed.isEmpty then script
  else
    match (importLineEnds script).getLast? with
    | some lastEnd =>
      match findSub (script.drop lastEnd) [nl] with
      | some rel =>
        let ip := lastEnd + rel
        script.take ip ++ [nl] ++ joinNl needed ++ script.drop ip
      | Option.none => script
    | Option.none =>
      match (linesWithPos script).find?
          (fun pl => (str "#!/usr/bin/env python3\n").isPrefixOf (script.drop pl.1)) with
      | some pl =>
        let ip0 := pl.1 + 23
        let slice := script.drop ip0
        let ip :=
          if (str "\"\"\"").isPrefixOf slice then
            match findSub (slice.drop 3) (str "\"\"\"") with
            | some k => ip0 + 3 + k + 3
            | Option.none => ip0
          else ip0
        script.take ip ++ [nl] ++ joinNl needed ++ [nl] ++ script.drop ip
      | Option.none => joinNl needed ++ [nl] ++ script

/-- The `import pandas` aliasing fix of `_repair_script`. -/
def pandasFix (script : Str) : Str :=
  if aliasUseFound (str "pd.") (str "pandas.") script &&
      containsSub script (str "import pandas") &&
      !containsSub script (str " as pd") && containsSub script (str "pd.") then
    pyReplace script (str "import pandas") (str "import pandas as pd")
  else script

/-- The `import matplotlib.pyplot` aliasing fix of `_repair_script`. -/
def pltFix (script : Str) : Str :=
  if aliasUseFound (str "plt.") (str "matplotlib.") script &&
      containsSub script (str "import matplotlib.pyplot") &&
      !containsSub script (str " as plt") && containsSub script (str "plt.") then
    pyReplace script (str "import matplotlib.pyplot") (str "import matplotlib.pyplot as plt")
  else script

/-- `_repair_script(script)`: detect library usage without imports, extend
bare `import pandas` / `import matplotlib.pyplot` with aliases, and insert
any missing import lines.  The json / pandas flags are decided on the
incoming script, the numpy / matplotlib flags after the pandas fix, and the
remaining flags after the matplotlib fix, following the source's statement
order. -/
def repairScript (script : Str) : Str :=
  let needJson := jsonUseFound script &&
    !containsSub script (str "import json") && !containsSub script (str "from json")
  let pandasUse := aliasUseFound (str "pd.") (str "pandas.") script
  let needPandas := pandasUse &&
    !containsSub script (str "import pandas") && !containsSub script (str "from pandas")
  let s1 := if needPandas then script else pandasFix script
  let needNumpy := aliasUseFound (str "np.") (str "numpy.") s1 &&
    !containsSub s1 (str "import numpy") && !containsSub s1 (str "from numpy")
  let needPlt := aliasUseFound (str "plt.") (str "matplotlib.") s1 &&
    !containsSub s1 (str "import matplotlib") && !containsSub s1 (str "from matplotlib")
  let s2 := if needPlt then s1 else pltFix s1
  let needXl := excelUseFound s2 &&
    !containsSub s2 (str "import openpyxl") && !containsSub s2 (str "from openpyxl")
  let needPath := pathUseFound s2 &&
    !containsSub s2 (str "from pathlib import Path") && !containsSub s2 (str "import pathlib")
  let needOs := dottedUseFound (str "os.")
      [str "path", str "makedirs", str "listdir", str "getcwd", str "chdir",
       str "environ", str "abspath", str "join"] s2 &&
    !containsSub s2 (str "import os")
  let needSys := dottedUseFound (str "sys.")
      [str "argv", str "exit", str "executable", str "path"] s2 &&
    !containsSub s2 (str "import sys")
  let needed :=
    (if needJson then [str "import json"] else []) ++
    (if needPandas then [str "import pandas as pd"] else []) ++
    (if needNumpy then [str "import numpy as np"] else []) ++
    (if needPlt then [str "import matplotlib.pyplot as plt"] else []) ++
    (if needXl then [str "import openpyxl"] else []) ++
    (if needPath then [str "from pathlib import Path"] else []) ++
    (if needOs then [str "import os"] else []) ++
    (if needSys then [str "import sys"] else [])
  insertImports s2 needed

/-- Leftmost match of `NameError: name '(\w+)' is not defined` in the
stderr text: the captured name. -/
def findNameError (err : Str) : Option Str :=
  scanFirst
    (fun t =>
      if ((str "NameError: name ") ++ [apos]).isPrefixOf t then
        let t1 := t.drop 17
        let r := wordRun t1
        if 1 ≤ r && ([apos] ++ str " is not defined").isPrefixOf (t1.drop r) then
          some (t1.take r)
        else Option.none
      else Option.none)
    err

/-- First match position of `\bname\s*\(` (the name, at a word boundary,
followed by optional white space and an opening parenthesis). -/
def callsNameIdxGo (name : Str) : Option Char → Str → Nat → Option Nat
  | _, [], _ => Option.none
  | prev, t@(c :: rest), i =>
    if atWB prev && name.isPrefixOf t &&
        ((t.drop name.length).drop (wsRun (t.drop name.length))).head? = some '(' then
      some i
    else callsNameIdxGo name (some c) rest (i + 1)

/-- First match position of `\bname\s*\(` in the script. -/
def callsNameIdx (name : Str) (s : Str) : Option Nat :=
  callsNameIdxGo name Option.none s 0

/-- Match of `^\s*def\s+name\s*\(` at one MULTILINE anchor position
(the greedy white-space runs are forced, since `def` and the name start
with non-white-space characters). -/
def defsAt (name : Str) (t : Str) : Bool :=
  let t1 := t.drop (wsRun t)
  (str "def").isPrefixOf t1 &&
  (let t2 := t1.drop 3
   let w2 := wsRun t2
   decide (1 ≤ w2) && name.isPrefixOf (t2.drop w2) &&
   (let t3 := (t2.drop w2).drop name.length
    (t3.drop (wsRun t3)).head? = some '('))

/-- `re.search(rf'^\s*def\s+{name}\s*\(', script, re.MULTILINE)` existence. -/
def definesName (name : Str) (s : Str) : Bool :=
  (linesWithPos s).any fun pl => defsAt name (s.drop pl.1)

/-- The `dateStub` stub template of `_repair_script_errors`. -/
def dateStub (name : Str) : Str :=
  str "\ndef " ++ name ++ str "(date_str):\n    \"\"\"Normalize date string to YYYY-MM-DD format\"\"\"\n    from datetime import datetime\n    if not date_str or pd.isna(date_str):\n        return None\n    date_str = str(date_str).strip()\n    # Try common date formats\n    formats = [\u0027%Y-%m-%d\u0027, \u0027%m/%d/%Y\u0027, \u0027%d/%m/%Y\u0027, \u0027%Y-%m-%d %H:%M:%S\u0027, \u0027%m-%d-%Y\u0027, \u0027%d-%m-%Y\u0027]\n    for fmt in formats:\n        try:\n            dt = datetime.strptime(date_str, fmt)\n            return dt.strftime(\u0027%Y-%m-%d\u0027)\n        except:\n            continue\n    return date_str  # Return as-is if can\u0027t parse\n"

/-- The `extractStub` stub template of `_repair_script_errors`. -/
def extractStub (name : Str) : Str :=
  str "\ndef " ++ name ++ str "(*args, **kwargs):\n    \"\"\"Auto-generated extraction function\"\"\"\n    if args:\n        return str(args[0])\n    return \"\"\n"

/-- The `parseStub` stub template of `_repair_script_errors`. -/
def parseStub (name : Str) : Str :=
  str "\ndef " ++ name ++ str "(*args, **kwargs):\n    \"\"\"Auto-generated parse function\"\"\"\n    if args:\n        return args[0]\n    return None\n"

/-- The `genericStub` stub template of `_repair_script_errors`. -/
def genericStub (name : Str) : Str :=
  str "\ndef " ++ name ++ str "(*args, **kwargs):\n    \"\"\"Auto-generated function for " ++ name ++ str "\"\"\"\n    if args:\n        return args[0]\n    return None\n"


/-- Stub selection by the missing name (date-normalising, extraction,
parsing, generic). -/
def pickStub (name : Str) : Str :=
  let ln := pyLower name
  if containsSub ln (str "normalize") && containsSub ln (str "date") then dateStub name
  else if containsSub ln (str "extract") then extractStub name
  else if containsSub ln (str "parse") then parseStub name
  else genericStub name

/-- Match ends of `^(def |import |from |class )` (MULTILINE) in the text
before the first call site. -/
def stubLineEnds (pre : Str) : List Nat :=
  (linesWithPos pre).filterMap fun pl =>
    if (str "def ").isPrefixOf (pre.drop pl.1) then some (pl.1 + 4)
    else if (str "import ").isPrefixOf (pre.drop pl.1) then some (pl.1 + 7)
    else if (str "from ").isPrefixOf (pre.drop pl.1) then some (pl.1 + 5)
    else if (str "class ").isPrefixOf (pre.drop pl.1) then some (pl.1 + 6)
    else Option.none

/-- Absolute match ends of `^(import |from )` (MULTILINE). -/
def simpleImportEnds (script : Str) : List Nat :=
  (linesWithPos script).filterMap fun pl =>
    if (str "import ").isPrefixOf (script.drop pl.1) then some (pl.1 + 7)
    else if (str "from ").isPrefixOf (script.drop pl.1) then some (pl.1 + 5)
    else Option.none

/-- The stub-insertion position of `_repair_script_errors` given the first
call-site offset: after the last `def/import/from/class` keyword preceding
the call when one exists, otherwise after the last import line's newline,
otherwise just after a shebang line (or at the top). -/
def insertStubIntoScript (stub name script : Str) : Str :=
  match callsNameIdx name script with
  | some u =>
    let ends := stubLineEnds (script.take u)
    if !ends.isEmpty then
      let ip := ends.foldl max 0
      script.take ip ++ stub ++ [nl] ++ script.drop ip
    else
      let importEnd : Int :=
        match (simpleImportEnds script).getLast? with
        | some e =>
          match findSub (script.drop e) [nl] with
          | some rel => (e : Int) + (rel : Int)
          | Option.none => -1
        | Option.none => 0
      if 0 < importEnd then
        script.take importEnd.toNat ++ stub ++ script.drop importEnd.toNat
      else
        let shebangEnd : Int :=
          if (str "#!").isPrefixOf script then
            match findSub script [nl] with
            | some i => (i : Int)
            | Option.none => -1
          else 0
        let ip := (shebangEnd + 1).toNat
        script.take ip ++ stub ++ [nl] ++ script.drop ip
  | Option.none => script

/-- The problem-line condition of the regex-error fix: the text after the
first `[`, cut at the next `[`, apostrophe or quote, contains no `]`. -/
def unterminatedSetLine (pl : Str) : Bool :=
  containsSub pl (str "[") &&
  (let t := (pl.dropWhile (fun c => c ≠ '[')).drop 1
   let seg := ((t.takeWhile (fun c => c ≠ '[')).takeWhile
     (fun c => c ≠ apos)).takeWhile (fun c => c ≠ dquote)
   !containsSub seg (str "]"))

/-- Leftmost match of `File "[^"]+", line (\d+)` in the stderr text. -/
def fileLinePat (t : Str) : Option Nat :=
  if (str "File \"").isPrefixOf t then
    let t1 := t.drop 6
    let r := charRun (fun c => c ≠ dquote) t1
    if r = 0 then Option.none
    else if (str "\", line ").isPrefixOf (t1.drop r) then
      let t2 := t1.drop (r + 8)
      let d := digitRun t2
      if d = 0 then Option.none else some (digitsToNat (t2.take d))
    else Option.none
  else Option.none

/-- The regex-error section of `_repair_script_errors`: comment out the
line named by the traceback when it looks like an unterminated character
set. -/
def regexFix (script err : Str) : Str :=
  match scanFirst fileLinePat err with
  | some lineNum =>
    let lines := pySplitOn '\n' script
    if 0 < lineNum && lineNum ≤ lines.length then
      let pl := lines.getD (lineNum - 1) []
      if unterminatedSetLine pl then
        joinNl (lines.set (lineNum - 1)
          (str "# " ++ pl ++ str "  # FIXED: Commented out problematic regex"))
      else script
    else script
  | Option.none => script

/-- `_repair_script_errors(script, error_text)`: the NameError stub
insertion, the regex-error fix, then `_repair_script`. -/
def repairScriptErrors (script err : Str) : Str :=
  let script1 :=
    match findNameError err with
    | some name =>
      if (callsNameIdx name script).isSome && !definesName name script then
        insertStubIntoScript (pickStub name) name script
      else script
    | Option.none => script
  let script2 :=
    if containsSub err (str "re.PatternError") ||
        containsSub (pyLower err) (str "unterminated") ||
        containsSub (pyLower err) (str "bad escape") then
      regexFix script1 err
    else script1
  repairScript script2

/-- Outcome of one `subprocess.run` call: completion with exit code,
stdout and stderr; the 300-second `TimeoutExpired`; or another exception. -/
inductive RunRes where
  | completed (returncode : Int) (stdout stderr : Str)
  | timedOut
  | raised (msg : String)
  deriving DecidableEq

/-- The recorded outcome of the execution section of
`_save_execution_outputs`: the final success flag, the recorded error, and
the scripts executed, in order. -/
structure PhaseOut where
  success : Bool
  error : Option Str
  executed : List Str
  deriving DecidableEq

/-- `'\n'.join(error_text.strip().split('\n')[-3:])`. -/
def last3 (stderr : Str) : Str := joinNl (lastN 3 (pySplitOn '\n' (pyStrip stderr)))

/-- The recorded timeout error string. -/
def timeoutMsg : Str := str "Script execution timed out after 5 minutes"

/-- `f"Exit code {returncode}"`. -/
def exitCodeMsg (rc : Int) : Str := str "Exit code " ++ pyStr (.num rc)

/-- The execution / repair / retry section of `_save_execution_outputs`:
run the script; on a nonzero exit with stderr mentioning a NameError,
ModuleNotFoundError or `undefined`, repair once and re-run once; a timeout
or exception in either run is caught and recorded. -/
def executionPhase (oracle : Str → RunRes) (script : Str) : PhaseOut :=
  match oracle script with
  | .timedOut => ⟨false, some timeoutMsg, [script]⟩
  | .raised m => ⟨false, some m.data, [script]⟩
  | .completed rc _ err =>
    if rc = 0 then ⟨true, Option.none, [script]⟩
    else
      let scriptError := if !err.isEmpty then last3 err else exitCodeMsg rc
      if !err.isEmpty &&
          (containsSub err (str "NameError") ||
           containsSub err (str "ModuleNotFoundError") ||
           containsSub (pyLower err) (str "undefined")) then
        let repaired := repairScriptErrors script err
        if repaired ≠ script then
          match oracle repaired with
          | .completed rc2 _ _ =>
            if rc2 = 0 then ⟨true, Option.none, [script, repaired]⟩
            else ⟨false, some scriptError, [script, repaired]⟩
          | .timedOut => ⟨false, some timeoutMsg, [script, repaired]⟩
          | .raised m => ⟨false, some m.data, [script, repaired]⟩
        else ⟨false, some scriptError, [script]⟩
      else ⟨false, some scriptError, [script]⟩


/-- The missing-name of claim C5. -/
def nmND : Str := str "normalize_date"

/-- The NameError stderr line of claim C5. -/
def errND : Str :=
  str "NameError: name " ++ [apos] ++ nmND ++ [apos] ++ str " is not defined"

/-- C5 counterexample script: the only call precedes the import block. -/
def scriptC5 : Str := str "normalize_date(" ++ [apos] ++ str "x" ++ [apos] ++ str ")\nimport os\n"

/-- An execution oracle that always fails with the NameError stderr. -/
def oracleND : Str → RunRes := fun _ => .completed 1 [] errND

/-- C5 witness script: an import line precedes the call. -/
def scriptW : Str :=
  str "import pandas as pd\nresult = normalize_date(" ++ [apos] ++ str "2020" ++ [apos] ++
  str ")\nprint(result)\n"

/-- An execution oracle that never terminates. -/
def oracleHang : Str → RunRes := fun _ => .timedOut


/-!
## `task_executor._fix_paths_in_script` (lines 873-972)

`_find_synthetic_folder` reads the filesystem; it is modelled by an
optional folder name handed to the function.  Each `re.sub` over the fixed
patterns is embedded as a left-to-right scan attempting an anchored match
at every position; the patterns' backtracking is forced (each quantified
class is disjoint from what must follow it), so greedy runs are maximal
runs.
-/

/-- `f"../../synthetic/{synthetic_name}"`. -/
def relPath (x : Str) : Str := str "../../synthetic/" ++ x

/-- Membership in the pattern class `['"]`. -/
def isQuote (c : Char) : Bool := c = apos || c = '"'

/-- Length of the greedy `[^'"]+` run at the head of the string. -/
def nonQuoteRun : Str → Nat
  | [] => 0
  | c :: rest => if isQuote c then 0 else nonQuoteRun rest + 1

/-- Length of the greedy `[^\n]*` run at the head of the string. -/
def nonNlRun : Str → Nat
  | [] => 0
  | c :: rest => if c = nl then 0 else nonNlRun rest + 1

/-- One `re.sub` pass: at each position attempt the anchored matcher; on a
match emit the replacement and continue after the matched text, else keep
the character.  Fuel is the input length (every matcher consumes at least
one character per match). -/
def subScan (m : Str → Option (Str × Str)) : Nat → Str → Str
  | 0, s => s
  | _ + 1, [] => []
  | fuel + 1, c :: rest =>
    match m (c :: rest) with
    | some (rep, t) => rep ++ subScan m fuel t
    | Option.none => c :: subScan m fuel rest

/-- Anchored match of `(['"])(?!\.\./)(\w+\.EXT)\1` with replacement
`\1{rel}/\2\1` (EXT one of csv, xlsx, json, txt, md). -/
def extTry (rel ext : Str) : Str → Option (Str × Str)
  | [] => Option.none
  | q :: t =>
    if isQuote q && !(str "../").isPrefixOf t then
      let r := wordRun t
      if 1 ≤ r && (str "." ++ ext ++ [q]).isPrefixOf (t.drop r) then
        some ([q] ++ rel ++ str "/" ++ t.take r ++ str "." ++ ext ++ [q],
          (t.drop r).drop (ext.length + 2))
      else Option.none
    else Option.none

/-- Anchored match of `(['"])(?!\.\./)input/([^'"]+)\1` with replacement
`\1{rel}/\2\1`. -/
def inputDirTry (rel : Str) : Str → Option (Str × Str)
  | [] => Option.none
  | q :: t =>
    if isQuote q && !(str "../").isPrefixOf t && (str "input/").isPrefixOf t then
      let t2 := t.drop 6
      let r := nonQuoteRun t2
      if 1 ≤ r && (t2.drop r).head? = some q then
        some ([q] ++ rel ++ str "/" ++ t2.take r ++ [q], (t2.drop r).drop 1)
      else Option.none
    else Option.none

/-- Anchored match of `VAR\s*=\s*['"](?!\.\./)([^'"]+)['"]` with replacement
`VAR = '{rel}/\1'` (VAR the literal `INPUT_FILE` or `input_file`; the
closing quote need not match the opening one). -/
def inputFileTry (var rel : Str) (s : Str) : Option (Str × Str) :=
  if var.isPrefixOf s then
    let t1 := s.drop var.length
    let t2 := t1.drop (wsRun t1)
    if t2.head? = some '=' then
      let t3 := t2.drop 1
      let t4 := t3.drop (wsRun t3)
      match t4 with
      | [] => Option.none
      | q :: t5 =>
        if isQuote q && !(str "../").isPrefixOf t5 then
          let r := nonQuoteRun t5
          if 1 ≤ r && (match (t5.drop r).head? with
              | some c => isQuote c
              | Option.none => false) then
            some (var ++ str " = " ++ [apos] ++ rel ++ str "/" ++ t5.take r ++ [apos],
              (t5.drop r).drop 1)
          else Option.none
        else Option.none
    else Option.none
  else Option.none

/-- Anchored match of `(\w+)\s*=\s*['"]{rel}/([^'"]+)['"]` with replacement
`\1 = os.path.abspath(os.path.join(script_dir, '{rel}', '\2'))`. -/
def assignRelTry (rel : Str) (s : Str) : Option (Str × Str) :=
  let r0 := wordRun s
  if 1 ≤ r0 then
    let t1 := s.drop r0
    let t2 := t1.drop (wsRun t1)
    if t2.head? = some '=' then
      let t3 := t2.drop 1
      let t4 := t3.drop (wsRun t3)
      match t4 with
      | [] => Option.none
      | q :: t5 =>
        if isQuote q && (rel ++ str "/").isPrefixOf t5 then
          let t6 := t5.drop (rel.length + 1)
          let r := nonQuoteRun t6
          if 1 ≤ r && (match (t6.drop r).head? with
              | some c => isQuote c
              | Option.none => false) then
            some (s.take r0 ++ str " = os.path.abspath(os.path.join(script_dir, " ++
              [apos] ++ rel ++ [apos] ++ str ", " ++ [apos] ++ t6.take r ++ [apos] ++ str "))",
              (t6.drop r).drop 1)
          else Option.none
        else Option.none
    else Option.none
  else Option.none

/-- Anchored match of `['"]{rel}/([^'"]+)['"]` with replacement
`os.path.abspath(os.path.join(script_dir, '{rel}', '\1'))`. -/
def bareRelTry (rel : Str) : Str → Option (Str × Str)
  | [] => Option.none
  | q :: t =>
    if isQuote q && (rel ++ str "/").isPrefixOf t then
      let t2 := t.drop (rel.length + 1)
      let r := nonQuoteRun t2
      if 1 ≤ r && (match (t2.drop r).head? with
          | some c => isQuote c
          | Option.none => false) then
        some (str "os.path.abspath(os.path.join(script_dir, " ++
          [apos] ++ rel ++ [apos] ++ str ", " ++ [apos] ++ t2.take r ++ [apos] ++ str "))",
          (t2.drop r).drop 1)
      else Option.none
    else Option.none

/-- The lookahead body `\s*\)\s*#` of the output-path pattern. -/
def closeParenHash (t : Str) : Bool :=
  let t1 := t.drop (wsRun t)
  t1.head? = some ')' &&
  (let t2 := t1.drop 1
   (t2.drop (wsRun t2)).head? = some '#')

/-- Anchored match of `(['"])output/([^'"]+)\1(?!\s*\)\s*#)` with
replacement `os.path.join(script_dir, 'output', '\2')`. -/
def outputTry : Str → Option (Str × Str)
  | [] => Option.none
  | q :: t =>
    if isQuote q && (str "output/").isPrefixOf t then
      let t2 := t.drop 7
      let r := nonQuoteRun t2
      if 1 ≤ r && (t2.drop r).head? = some q && !closeParenHash ((t2.drop r).drop 1) then
        some (str "os.path.join(script_dir, " ++ [apos] ++ str "output" ++ [apos] ++
          str ", " ++ [apos] ++ t2.take r ++ [apos] ++ str ")", (t2.drop r).drop 1)
      else Option.none
    else Option.none

/-- Anchored match of `os\.makedirs\(['"]output['"](?!\))` with replacement
`os.makedirs(os.path.join(script_dir, 'output')`. -/
def makedirsTry (s : Str) : Option (Str × Str) :=
  if (str "os.makedirs(").isPrefixOf s then
    let t := s.drop 12
    match t with
    | [] => Option.none
    | q1 :: t1 =>
      if isQuote q1 && (str "output").isPrefixOf t1 then
        match t1.drop 6 with
        | [] => Option.none
        | q2 :: t3 =>
          if isQuote q2 && t3.head? ≠ some ')' then
            some (str "os.makedirs(os.path.join(script_dir, " ++ [apos] ++ str "output" ++
              [apos] ++ str ")", t3)
          else Option.none
      else Option.none
  else Option.none

/-- End position of the first match of `(import\s+os[^\n]*\n)`
(`import_section.end()`), scanning from position `i` with the given fuel. -/
def importOsEnd : Nat → Str → Nat → Option Nat
  | 0, _, _ => Option.none
  | _ + 1, [], _ => Option.none
  | fuel + 1, s@(_ :: rest), i =>
    if (str "import").isPrefixOf s then
      let t := s.drop 6
      let a := wsRun t
      if 1 ≤ a && (str "os").isPrefixOf (t.drop a) then
        let t2 := (t.drop a).drop 2
        let r := nonNlRun t2
        if (t2.drop r).head? = some nl then some (i + 6 + a + 2 + r + 1)
        else importOsEnd fuel rest (i + 1)
      else importOsEnd fuel rest (i + 1)
    else importOsEnd fuel rest (i + 1)

/-- The `script_dir` header inserted after the import line. -/
def scriptDirHeader : Str :=
  str "\n# Get script directory for relative paths\nscript_dir = os.path.dirname(os.path.abspath(__file__))\n"

/-- The script-directory setup insertion of `_fix_paths_in_script`. -/
def scriptDirIns (s : Str) : Str :=
  if containsSub s (str "os.path.dirname(os.path.abspath(__file__))") then s
  else
    match importOsEnd s.length s 0 with
    | some e =>
      if containsSub s (str "script_dir") then s
      else s.take e ++ scriptDirHeader ++ s.drop e
    | Option.none => s

/-- `_fix_paths_in_script(script, job)` after the synthetic folder has
resolved to the name `x`: the duplicate-segment cleanups, the eight
path-rewriting patterns in order, the `script_dir` insertion, the
`os.path.join` wrappings and the final duplicate cleanup. -/
def fixPathsCore (x : Str) (script : Str) : Str :=
  let rel := relPath x
  let dup := rel ++ str "/" ++ rel
  let s0 :=
    if containsSub script rel && containsSub script (str "../../synthetic") &&
        containsSub script dup then
      pyReplace script dup rel
    else script
  let s1 := pyReplace s0 dup rel
  let s2 := subScan (extTry rel (str "csv")) s1.length s1
  let s3 := subScan (extTry rel (str "xlsx")) s2.length s2
  let s4 := subScan (extTry rel (str "json")) s3.length s3
  let s5 := subScan (extTry rel (str "txt")) s4.length s4
  let s6 := subScan (extTry rel (str "md")) s5.length s5
  let s7 := subScan (inputDirTry rel) s6.length s6
  let s8 := subScan (inputFileTry (str "INPUT_FILE") rel) s7.length s7
  let s9 := subScan (inputFileTry (str "input_file") rel) s8.length s8
  let s10 := scriptDirIns s9
  let s11 := subScan (assignRelTry rel) s10.length s10
  let s12 := subScan (bareRelTry rel) s11.length s11
  let s13 := subScan outputTry s12.length s12
  let s14 := subScan makedirsTry s13.length s13
  pyReplace s14 dup rel

/-- `_fix_paths_in_script(script, job)`: identity when no synthetic folder
is found for the job. -/
def fixPathsInScript (syntheticFolder : Option Str) (script : Str) : Str :=
  match syntheticFolder with
  | Option.none => script
  | some x => fixPathsCore x script

/-- The already-plain input script of the idempotence counterexample. -/
def scriptPF : Str := str "import os\nINPUT_FILE = \u0027data.csv\u0027\n"


/-!
## `text_to_json.parse_job_posting` (src/text_to_json.py lines 125-302)

The source file stores its currency and bullet character classes as
double-encoded UTF-8 (mojibake): the rupee sign appears as the three
characters U+00E2 U+201A U+00B9, the euro sign of the budget class as
U+00E2 U+201A U+00AC, the pound sign as U+00C2 U+00A3, and the bullet of
the bullet class as U+00E2 U+20AC U+00A2.  The embedded classes hold the
characters literally stored in the file.  `str.lower` and `str.isdigit`
are embedded in their ASCII fragments, faithful on ASCII keyword tests.
-/

/-- The characters of the source's budget character class `[...]`
(deduplicated; U+00E2 and U+201A occur twice in the class). -/
def currencyClass : List Char :=
  [Char.ofNat 0xE2, Char.ofNat 0x201A, Char.ofNat 0xB9, '$',
   Char.ofNat 0xC2, Char.ofNat 0xA3, Char.ofNat 0xAC]

/-- Membership in the budget character class. -/
def isCurrencyCh (c : Char) : Bool := currencyClass.contains c

/-- ASCII `\d`. -/
def isDigitCh (c : Char) : Bool := '0' ≤ c && c ≤ '9'

/-- Python `str.isdigit()` (ASCII fragment): nonempty and all digits. -/
def pyIsDigitStr (s : Str) : Bool := !s.isEmpty && s.all isDigitCh

/-- Existence of a match of the budget pattern
`[class]\d+[-\d\s]*(?:INR|USD|AUD|GBP|EUR)?(?:\s*/\s*(?:hour|hr|project))?`:
everything after `\d+` can match empty, so a match exists exactly when a
class character is immediately followed by a digit. -/
def currencySearch : Str → Bool
  | [] => false
  | c :: rest =>
    (isCurrencyCh c && (match rest.head? with
      | some d => isDigitCh d
      | Option.none => false)) || currencySearch rest

/-- Greedy `[-\d\s]*` run length. -/
def dashDigitWsRun : Str → Nat
  | [] => 0
  | c :: rest =>
    if c = '-' || isDigitCh c || pyIsSpace c then dashDigitWsRun rest + 1 else 0

/-- The optional currency alternation `(?:INR|USD|AUD|GBP|EUR)?`: length of
the first alternative matching at the head (0 when none does). -/
def currencyWordLen (t : Str) : Nat :=
  if (str "INR").isPrefixOf t || (str "USD").isPrefixOf t || (str "AUD").isPrefixOf t ||
      (str "GBP").isPrefixOf t || (str "EUR").isPrefixOf t then 3 else 0

/-- `re.search(r'[class]\d+[-\d\s]*(?:INR|USD|AUD|GBP|EUR)?', s).group(0)`:
the leftmost class character followed by a digit starts the match; the
greedy runs are forced. -/
def currencyMatchGo : Str → Option Str
  | [] => Option.none
  | c :: rest =>
    if isCurrencyCh c && (match rest.head? with
        | some d => isDigitCh d
        | Option.none => false) then
      let dn := digitRun rest
      let rn := dashDigitWsRun (rest.drop dn)
      some ([c] ++ rest.take (dn + rn) ++
        (rest.drop (dn + rn)).take (currencyWordLen (rest.drop (dn + rn))))
    else currencyMatchGo rest

/-- `[line.strip() for line in text.strip().split('\n') if line.strip()]`. -/
def pyLines (text : Str) : List Str :=
  ((pySplitOn nl (pyStrip text)).map pyStrip).filter (fun l => !l.isEmpty)

/-- The status loop: the first line equal to `open` (lower-cased) gives
status `Open`; the first line containing `awarded` gives status `Awarded`,
and sets the posted time to the line itself when it mentions `posted`.
Returns the break index, the status and that posted time. -/
def statusScan : List Str → Nat → Option (Nat × Str × Str)
  | [], _ => Option.none
  | l :: rest, i =>
    let ll := pyLower l
    if ll = str "open" then some (i, str "Open", [])
    else if containsSub ll (str "awarded") then
      some (i, str "Awarded", if containsSub ll (str "posted") then l else [])
    else statusScan rest (i + 1)

/-- The payment-terms loop: the first line containing `paid on delivery`
is taken as is; otherwise the first line containing `fixed price` is
combined with the next line when that matches `[class]\d+`.  The flag
records the fixed-price branch (which may also set the budget). -/
def paymentScan : List Str → Option (Str × Bool)
  | [] => Option.none
  | l :: rest =>
    let ll := pyLower l
    if containsSub ll (str "paid on delivery") then some (l, false)
    else if containsSub ll (str "fixed price") then
      some ((match rest.head? with
        | some nxt => if currencySearch nxt then l ++ [' '] ++ nxt else l
        | Option.none => l), true)
    else paymentScan rest

/-- The experience-level loop: on the first line containing
`experience level`, the part after the first `:` (stripped), else the next
line (stripped), else the empty string. -/
def expScan : List Str → Option Str
  | [] => Option.none
  | l :: rest =>
    if containsSub (pyLower l) (str "experience level") then
      some (match findSub l (str ":") with
        | some k => pyStrip (l.drop (k + 1))
        | Option.none =>
          match rest.head? with
          | some nxt => pyStrip nxt
          | Option.none => [])
    else expScan rest

/-- The metadata-end fold: a line equal to `description` resets the end to
`i + 1`; a line mentioning `posted` / `ends in` / `ends:` / `paid on`, or
matching `[class]\d+` without being a `fixed price` line, raises it to at
least `i + 1`. -/
def metaEndGo : List Str → Nat → Nat → Nat
  | [], _, me => me
  | l :: rest, i, me =>
    let ll := pyStrip (pyLower l)
    let me1 := if ll = str "description" then i + 1 else me
    let me2 :=
      if containsSub ll (str "posted") || containsSub ll (str "ends in") ||
          containsSub ll (str "ends:") || containsSub ll (str "paid on") then
        max me1 (i + 1)
      else me1
    let me3 :=
      if currencySearch l && !containsSub ll (str "fixed price") then max me2 (i + 1)
      else me2
    metaEndGo rest (i + 1) me3

/-- Index of the last line satisfying the predicate (the source's loops
overwrite the index without breaking). -/
def lastIdxWhere (p : Str → Bool) : List Str → Nat → Option Nat
  | [], _ => Option.none
  | l :: rest, i =>
    match lastIdxWhere p rest (i + 1) with
    | some j => some j
    | Option.none => if p l then some i else Option.none

/-- The source's bullet character class `[-â€¢*]` as stored (mojibake). -/
def bulletClass : List Char :=
  ['-', Char.ofNat 0xE2, Char.ofNat 0x20AC, Char.ofNat 0xA2, '*']

/-- `re.sub(r'^[-â€¢*]\s*', '', line)`: strip one leading bullet character
and the white space after it. -/
def stripBullet (l : Str) : Str :=
  match l with
  | [] => l
  | c :: rest => if bulletClass.contains c then rest.drop (wsRun rest) else l

/-- The stored mojibake bullet string compared against stripped description
lines. -/
def bulletMoji : Str := [Char.ofNat 0xE2, Char.ofNat 0x20AC, Char.ofNat 0xA2]

/-- The record built by `parse_job_posting`. -/
structure JobRec where
  title : Str
  status : Str
  postedTime : Str
  endsTime : Str
  budget : Str
  paymentTerms : Str
  experienceLevel : Str
  description : Str
  requirements : List Str
  deliverables : List Str
  rawText : Str
  deriving DecidableEq

/-- `parse_job_posting(text)`: the rule-based fallback parser. -/
def parseJobPosting (text : Str) : Option JobRec :=
  let lines := pyLines text
  match lines.head? with
  | Option.none => Option.none
  | some l0 =>
    let sres := statusScan lines 0
    let status := match sres with
      | some (_, st, _) => st
      | Option.none => []
    let posted0 := match sres with
      | some (_, _, p) => p
      | Option.none => []
    let posted :=
      match sres with
      | some (i, _, _) =>
        if posted0.isEmpty then
          match ((lines.drop (i + 1)).take 2).find?
              (fun l => containsSub (pyLower l) (str "posted")) with
          | some p => p
          | Option.none => []
        else posted0
      | Option.none => posted0
    let ends := (lines.find? (fun l =>
      let ll := pyLower l
      containsSub ll (str "ends") &&
        (containsSub ll (str "day") || containsSub ll (str "in")))).getD []
    let budget0 := (lines.find? (fun l =>
      !containsSub (pyLower l) (str "fixed price") && currencySearch l)).getD []
    let pay := paymentScan lines
    let paymentTerms := match pay with
      | some (p, _) => p
      | Option.none => []
    let budget := match pay with
      | some (p, true) =>
        if budget0.isEmpty then
          match currencyMatchGo p with
          | some g => g
          | Option.none => budget0
        else budget0
      | _ => budget0
    let expLevel := (expScan lines).getD []
    let metaEnd := metaEndGo lines 0 0
    let reqIdx := lastIdxWhere (fun l => (str "requirements").isPrefixOf (pyStrip (pyLower l))) lines 0
    let delivIdx := lastIdxWhere (fun l => (str "deliverable").isPrefixOf (pyStrip (pyLower l))) lines 0
    let idealIdx := lastIdxWhere (fun l => (str "ideal").isPrefixOf (pyStrip (pyLower l))) lines 0
    let descStart := max metaEnd 1
    let descEnd := ([reqIdx, delivIdx, idealIdx].filterMap id).foldl min lines.length
    let desc :=
      if descStart < descEnd then
        let dl := ((lines.drop descStart).take (descEnd - descStart)).filter (fun l =>
          !(pyStrip l).isEmpty && pyStrip l ≠ str "*" && pyStrip l ≠ bulletMoji)
        let dl2 := dl.filter (fun l => 2 < (pyStrip l).length || !pyIsDigitStr (pyStrip l))
        if !dl2.isEmpty then pyStrip (pyJoin [nl] dl2) else []
      else []
    let reqs :=
      match [reqIdx, idealIdx].filterMap id with
      | [] => []
      | h :: t =>
        let reqStart := t.foldl min h
        let reqEnd := match delivIdx with
          | some d => d
          | Option.none => lines.length
        ((lines.drop (reqStart + 1)).take (reqEnd - (reqStart + 1))).filterMap (fun l =>
          if !l.isEmpty && !(str "deliverable").isPrefixOf (pyLower l) &&
              !(str "acceptance").isPrefixOf (pyLower l) then
            let cleaned := stripBullet l
            if !cleaned.isEmpty && 3 < cleaned.length then some cleaned else Option.none
          else Option.none)
    let delivs :=
      match delivIdx with
      | some d =>
        (lines.drop (d + 1)).filterMap (fun l =>
          if !l.isEmpty && !(str "acceptance").isPrefixOf (pyLower l) then
            let cleaned := stripBullet l
            if !cleaned.isEmpty then some cleaned else Option.none
          else Option.none)
      | Option.none => []
    some
      { title := l0
        status := status
        postedTime := posted
        endsTime := ends
        budget := budget
        paymentTerms := paymentTerms
        experienceLevel := expLevel
        description := desc
        requirements := reqs
        deliverables := delivs
        rawText := pyStrip text }

/-- The posting text of claim C9. -/
def postingC9 : Str :=
  str "Title\nOpen\nPosted 2 days ago\n$50 USD\nDescription text\nRequirements\n- Do X\nDeliverables\n- File Y"

/-!
# Theorems
-/

/-- On a well-formed assessed job, the loop condition of
`filter_feasible_jobs` computes exactly the specified predicate. -/
theorem jobKeep_assessed (m : ℚ) (j : Job) (h : assessedJob j = true) :
    jobKeep m j = .ok (specKeep m j) := by
  unfold assessedJob at h
  unfold jobKeep specKeep dictGetD
  cases hfeas : dictGet j (str "feasibility") with
  | none => simp [hfeas, truthy, dictGet, toNumQ]
  | some v =>
    rw [hfeas] at h
    cases v with
    | none => simp at h
    | bool b => simp at h
    | num q => simp at h
    | str s => simp at h
    | list l => simp at h
    | dict feas =>
      simp only [] at h
      cases hisf : dictGet feas (str "is_feasible") with
      | none => simp [hisf, truthy]
      | some w =>
        rw [hisf] at h
        cases w with
        | bool b =>
          cases b with
          | false => simp [hisf, truthy]
          | true =>
            cases hconf : dictGet feas (str "confidence") with
            | none => simp [hisf, hconf, truthy, toNumQ]
            | some u =>
              rw [hconf] at h
              cases u with
              | num q => simp [hisf, hconf, truthy, toNumQ]
              | none => simp at h
              | bool _ => simp at h
              | str _ => simp at h
              | list _ => simp at h
              | dict _ => simp at h
        | none => simp at h
        | num _ => simp at h
        | str _ => simp at h
        | list _ => simp at h
        | dict _ => simp at h

/-- Membership in a successful `filter_feasible_jobs` result implies
membership in the input and a positive loop condition. -/
theorem mem_filterFeasibleJobs {jobs : List Job} {m : ℚ} {res : List Job}
    (hres : filterFeasibleJobs jobs m = .ok res) {j : Job} (hj : j ∈ res) :
    j ∈ jobs ∧ jobKeep m j = .ok true := by
  induction jobs generalizing res with
  | nil =>
    unfold filterFeasibleJobs at hres
    cases hres
    cases hj
  | cons x rest ih =>
    unfold filterFeasibleJobs at hres
    cases hkx : jobKeep m x with
    | error e => rw [hkx] at hres; cases hres
    | ok kx =>
      rw [hkx] at hres
      cases hrt : filterFeasibleJobs rest m with
      | error e => rw [hrt] at hres; cases hres
      | ok rt =>
        rw [hrt] at hres
        simp only [Except.bind, bind, pure, Except.pure] at hres
        cases hres
        cases kx with
        | true =>
          simp only [if_true] at hj
          cases hj with
          | head => exact ⟨List.mem_cons_self _ _, hkx⟩
          | tail _ hmem =>
            obtain ⟨h1, h2⟩ := ih hrt hmem
            exact ⟨List.mem_cons_of_mem x h1, h2⟩
        | false =>
          simp only [Bool.false_eq_true, if_false] at hj
          obtain ⟨h1, h2⟩ := ih hrt hj
          exact ⟨List.mem_cons_of_mem x h1, h2⟩

/-- Claim C7: for every list of assessed jobs and threshold `min_confidence`,
`filter_feasible_jobs` keeps exactly the jobs whose feasibility assessment has
`is_feasible` true and `confidence ≥ min_confidence` (inclusive boundary:
confidence equal to the threshold is kept; a missing `is_feasible` counts as
false and a missing `confidence` as 0). -/
theorem filter_feasible_jobs_keeps_exactly (jobs : List Job) (m : ℚ)
    (h : ∀ j ∈ jobs, assessedJob j) :
    filterFeasibleJobs jobs m = .ok (jobs.filter (fun j => specKeep m j)) := by
  induction jobs with
  | nil => rfl
  | cons x rest ih =>
    unfold filterFeasibleJobs
    rw [jobKeep_assessed m x (h x (List.mem_cons_self x rest))]
    rw [ih (fun j hj => h j (List.mem_cons_of_mem x hj))]
    simp only [Except.bind, bind, pure, Except.pure, List.filter_cons]

/-- Witness for C7 at the inclusive boundary: with threshold `0.5`, a feasible
job of confidence `0.49` is excluded and a feasible job of confidence `0.5`
is kept. -/
theorem filter_feasible_jobs_keeps_exactly_witness :
    (∀ j ∈ [jobC49, jobC50], assessedJob j) ∧
      filterFeasibleJobs [jobC49, jobC50] (mkRat 1 2) = .ok [jobC50] := by
  constructor
  · decide
  · rw [filter_feasible_jobs_keeps_exactly [jobC49, jobC50] (mkRat 1 2) (by decide)]
    decide

/-- With a positive threshold, the loop condition is false on every job with
a missing assessment, missing `is_feasible` or missing `confidence`. -/
theorem jobKeep_missing (m : ℚ) (j : Job) (hm : 0 < m)
    (h : missingAssessment j = true) : jobKeep m j = .ok false := by
  unfold missingAssessment at h
  unfold jobKeep dictGetD
  cases hfeas : dictGet j (str "feasibility") with
  | none => simp [truthy, dictGet]
  | some v =>
    rw [hfeas] at h
    cases v with
    | none => simp at h
    | bool b => simp at h
    | num q => simp at h
    | str s => simp at h
    | list l => simp at h
    | dict feas =>
      simp only [Option.isNone] at h
      cases hisf : dictGet feas (str "is_feasible") with
      | none => simp [hisf, truthy]
      | some w =>
        rw [hisf] at h
        cases htw : truthy w with
        | false => simp [hisf, htw]
        | true =>
          cases hconf : dictGet feas (str "confidence") with
          | none =>
            simp only [hconf, Option.getD, htw, toNumQ, Bool.not_true,
              Bool.false_eq_true, if_false]
            have : ¬ (m ≤ 0) := not_le.mpr hm
            simp [this]
          | some u =>
            rw [hconf] at h
            simp at h

/-- Claim C10: with a positive threshold, `filter_feasible_jobs` never selects
a job whose feasibility mapping, `is_feasible` key or `confidence` key is
absent (missing `is_feasible` is treated as false, missing `confidence` as 0). -/
theorem filter_feasible_jobs_excludes_missing (jobs : List Job) (m : ℚ)
    (j : Job) (res : List Job) (hm : 0 < m) (_ : j ∈ jobs)
    (hmiss : missingAssessment j = true)
    (hres : filterFeasibleJobs jobs m = .ok res) : j ∉ res := by
  intro hj
  have h2 := (mem_filterFeasibleJobs hres hj).2
  rw [jobKeep_missing m j hm hmiss] at h2
  cases h2

/-- Witness for C10: a job with `is_feasible = true` but no `confidence` key
is excluded at threshold `0.5`. -/
theorem filter_feasible_jobs_excludes_missing_witness :
    0 < mkRat 1 2 ∧ missingAssessment jobNoConf = true ∧
      jobNoConf ∉ ([] : List Job) :=
  ⟨by decide, by decide,
    filter_feasible_jobs_excludes_missing [jobNoConf] (mkRat 1 2) jobNoConf []
      (by decide) (by decide) (by decide) (by decide)⟩

/-- Unfolding lemma: one step of the source's balancing loop is one step of
the specification state machine. -/
theorem balancedScan_cons (c : Char) (rest : Str) (d : Int) (s e : Bool) :
    balancedScan (c :: rest) d s e =
      if closesHere ⟨d, s, e⟩ c then some 0
      else
        (balancedScan rest (scanStep ⟨d, s, e⟩ c).depth
          (scanStep ⟨d, s, e⟩ c).strMode (scanStep ⟨d, s, e⟩ c).esc).map (· + 1) := by
  have hbd : bslash ≠ dquote := by decide
  have hbl : bslash ≠ lbrace := by decide
  have hbr : bslash ≠ rbrace := by decide
  have hdl : dquote ≠ lbrace := by decide
  have hdr : dquote ≠ rbrace := by decide
  have hlr : lbrace ≠ rbrace := by decide
  simp only [balancedScan, closesHere, scanStep]
  by_cases he : e <;> by_cases hb : c = bslash <;> by_cases hq : c = dquote <;>
    by_cases hs' : s <;> by_cases hl : c = lbrace <;> by_cases hr : c = rbrace <;>
    subst_vars <;> simp_all
  have hd : (d - 1 = 0) ↔ d = 1 := by omega
  simp [hd]

/-- The source's balancing loop finds exactly the first index satisfying the
specification's closing condition. -/
theorem balancedScan_eq_findIdx (cs : Str) :
    ∀ (d : Int) (s e : Bool) (i : Nat),
      (balancedScan cs d s e).map (· + i) =
        ((List.scanl scanStep ⟨d, s, e⟩ cs).zip cs).findIdx?
          (fun p => closesHere p.1 p.2) i := by
  induction cs with
  | nil => intro d s e i; simp [balancedScan, List.findIdx?]
  | cons c rest ih =>
    intro d s e i
    rw [balancedScan_cons]
    rw [List.scanl_cons]
    simp only [List.singleton_append, List.zip_cons_cons, List.findIdx?_cons]
    by_cases hc : closesHere ⟨d, s, e⟩ c
    · simp [hc]
    · simp only [hc, if_false, Bool.false_eq_true]
      rw [← ih (scanStep ⟨d, s, e⟩ c).depth (scanStep ⟨d, s, e⟩ c).strMode
        (scanStep ⟨d, s, e⟩ c).esc (i + 1)]
      cases balancedScan rest (scanStep ⟨d, s, e⟩ c).depth
        (scanStep ⟨d, s, e⟩ c).strMode (scanStep ⟨d, s, e⟩ c).esc with
      | none => simp
      | some k => simp; omega

/-- Claim C1: `_extract_json_balanced` returns, for every input, exactly what
the specification describes over the fence-stripped text: the contiguous
substring from the first opening brace to the first character at which the
depth (maintained with string mode and one-character escapes) returns to
zero, and the whole tail from the first opening brace when the depth never
returns to zero (the no-brace case yields the empty string). -/
theorem extract_json_balanced_meets_spec (text : Str) :
    extractJsonBalanced text = extractJsonBalancedSpec text := by
  have hscan : ∀ (rest : Str), balancedScan rest 0 false false =
      ((List.scanl scanStep ⟨0, false, false⟩ rest).zip rest).findIdx?
        (fun p => closesHere p.1 p.2) := by
    intro rest
    have h := balancedScan_eq_findIdx rest 0 false false 0
    simpa using h
  unfold extractJsonBalanced extractJsonBalancedSpec firstCloseIdx
  simp only [hscan]

/-- Claim C2 (code bug): on the syntactically valid JSON object
`{"reasoning": "ok,}"}` the trailing-comma quick fix of
`_extract_and_parse_json` rewrites the comma inside the string value, so the
routine returns `{"reasoning": "ok}"}` instead of the embedded object that a
direct `json.loads` yields. -/
theorem extract_and_parse_json_corrupts_string :
    pyJsonLoads (str "\x7b\"reasoning\": \"ok,\x7d\"\x7d") =
      .ok (.dict [(str "reasoning", .str (str "ok,\x7d"))]) ∧
    extractAndParseJson oracleErr (str "\x7b\"reasoning\": \"ok,\x7d\"\x7d") =
      .ok (.dict [(str "reasoning", .str (str "ok\x7d"))]) ∧
    extractAndParseJson oracleErr (str "\x7b\"reasoning\": \"ok,\x7d\"\x7d") ≠
      pyJsonLoads (str "\x7b\"reasoning\": \"ok,\x7d\"\x7d") :=
  ⟨by decide, by decide, by decide⟩

theorem isPrefixOf_self : ∀ (l : Str), l.isPrefixOf l = true
  | [] => rfl
  | c :: rest => by simp [List.isPrefixOf, isPrefixOf_self rest]

theorem containsSub_append_right : ∀ (a b : Str), containsSub (a ++ b) b = true
  | [], b => by
    cases b with
    | nil => rfl
    | cons c r => simp [containsSub, isPrefixOf_self]
  | x :: a', b => by simp [containsSub, containsSub_append_right a' b]

/-- Claim C4: whenever the body of `check_job_feasibility` raises, the
function does not propagate the exception but returns the conservative
assessment: `is_feasible = false`, `confidence = 0.2`, and a reasoning
string containing the exception message. -/
theorem check_job_feasibility_error_conservative
    (oracle : Str → Except String Str) (job : Job) (msg : String)
    (h : checkBody oracle job = .error msg) :
    checkJobFeasibility oracle job = errorAssessment msg ∧
    (checkJobFeasibility oracle job).is_feasible = false ∧
    (checkJobFeasibility oracle job).confidence = mkRat 2 10 ∧
    containsSub (checkJobFeasibility oracle job).reasoning msg.data = true := by
  have he : checkJobFeasibility oracle job = errorAssessment msg := by
    simp [checkJobFeasibility, h]
  refine ⟨he, ?_, ?_, ?_⟩ <;> rw [he]
  · rfl
  · rfl
  · exact containsSub_append_right _ _

/-- Witness for C4: an oracle whose chat call raises, on the empty job. -/
theorem check_job_feasibility_error_witness :
    checkBody oracleErr [] = .error "LLM unavailable" ∧
    (checkJobFeasibility oracleErr []).is_feasible = false ∧
    (checkJobFeasibility oracleErr []).confidence = mkRat 2 10 ∧
    containsSub (checkJobFeasibility oracleErr []).reasoning
      (String.data "LLM unavailable") = true := by
  have h : checkBody oracleErr [] = .error "LLM unavailable" := by decide
  obtain ⟨-, h2, h3, h4⟩ :=
    check_job_feasibility_error_conservative oracleErr [] "LLM unavailable" h
  exact ⟨h, h2, h3, h4⟩

/-- Claim C6: a script whose subprocess run hits the 300-second timeout is
recorded with `success = false` and the documented error string, with no
retry and nothing raised to the caller (the phase returns normally). -/
theorem execution_timeout_recorded (oracle : Str → RunRes) (script : Str)
    (h : oracle script = RunRes.timedOut) :
    executionPhase oracle script =
      ⟨false, some (str "Script execution timed out after 5 minutes"), [script]⟩ := by
  simp only [executionPhase, h]
  rfl

/-- Witness for C6: the always-hanging oracle. -/
theorem execution_timeout_recorded_witness :
    oracleHang (str "while True: pass") = RunRes.timedOut ∧
    executionPhase oracleHang (str "while True: pass") =
      ⟨false, some (str "Script execution timed out after 5 minutes"),
        [str "while True: pass"]⟩ :=
  ⟨rfl, execution_timeout_recorded oracleHang (str "while True: pass") rfl⟩

set_option maxRecDepth 8192 in
/-- Counterexample to claim C5 as stated: in `scriptC5` the only call of
`normalize_date` is at position 0, so nothing can be inserted before it;
the repair inserts the stub after the import line (position 50), yet
exactly one repair and one re-execution still happen. -/
theorem repair_inserts_after_call_site :
    callsNameIdx nmND scriptC5 = some 0 ∧
    findSub (repairScriptErrors scriptC5 errND) (str "def normalize_date") = some 50 ∧
    findSub (repairScriptErrors scriptC5 errND) nmND = some 0 ∧
    executionPhase oracleND scriptC5 =
      ⟨false, some (last3 errND), [scriptC5, repairScriptErrors scriptC5 errND]⟩ :=
  ⟨by decide, by decide, by decide, by decide⟩

theorem containsSub_of_pre : ∀ (hay n1 n2 : Str),
    containsSub hay n2 = true → n1.isPrefixOf n2 = true → containsSub hay n1 = true
  | [], n1, n2, h, hp => by
    unfold containsSub at *
    have h2 : n2 = [] := by simpa [List.isEmpty_iff] using h
    subst h2
    have : n1 = [] := List.prefix_nil.mp (List.isPrefixOf_iff_prefix.mp hp)
    simp [this]
  | c :: rest, n1, n2, h, hp => by
    unfold containsSub at h ⊢
    rcases Bool.or_eq_true_iff.mp h with h1 | h2
    · have hpre : n2 <+: (c :: rest) := List.isPrefixOf_iff_prefix.mp h1
      have hp1 : n1 <+: n2 := List.isPrefixOf_iff_prefix.mp hp
      have : n1 <+: (c :: rest) := hp1.trans hpre
      simp [List.isPrefixOf_iff_prefix.mpr this]
    · simp [containsSub_of_pre rest n1 n2 h2 hp]

theorem containsSub_hay_ne_nil {hay needle : Str} (h : containsSub hay needle = true)
    (hn : needle ≠ []) : hay ≠ [] := by
  intro he
  subst he
  unfold containsSub at h
  exact hn (by simpa [List.isEmpty_iff] using h)

theorem foldl_max_le (l : List Nat) (b : Nat) :
    ∀ (a : Nat), a ≤ b → (∀ x ∈ l, x ≤ b) → l.foldl max a ≤ b := by
  induction l with
  | nil => intro a ha _; simpa using ha
  | cons x xs ih =>
    intro a ha hall
    simp only [List.foldl_cons]
    exact ih (max a x) (by
      have := hall x (List.mem_cons_self _ _)
      omega) (fun y hy => hall y (List.mem_cons_of_mem _ hy))

theorem stubLineEnds_le (pre : Str) : ∀ e ∈ stubLineEnds pre, e ≤ pre.length := by
  intro e he
  unfold stubLineEnds at he
  obtain ⟨pl, _, hf⟩ := List.mem_filterMap.mp he
  have hb : ∀ (w : Str), w.isPrefixOf (pre.drop pl.1) = true →
      1 ≤ w.length → pl.1 + w.length ≤ pre.length := by
    intro w hw hk
    have := (List.isPrefixOf_iff_prefix.mp hw).length_le
    simp only [List.length_drop] at this
    omega
  split at hf
  · cases hf; exact hb _ (by assumption) (by decide)
  · split at hf
    · cases hf; exact hb _ (by assumption) (by decide)
    · split at hf
      · cases hf; exact hb _ (by assumption) (by decide)
      · split at hf
        · cases hf; exact hb _ (by assumption) (by decide)
        · cases hf

theorem pyReplaceGo_length : ∀ (fuel : Nat) (s old new : Str),
    old.length ≤ new.length → s.length ≤ (pyReplaceGo fuel s old new).length
  | 0, s, _, _, _ => le_refl _
  | _ + 1, [], _, _, _ => by simp [pyReplaceGo]
  | fuel + 1, c :: rest, old, new, h => by
    rw [pyReplaceGo]
    split
    · have := pyReplaceGo_length fuel ((c :: rest).drop old.length) old new h
      simp only [List.length_append, List.length_drop, List.length_cons] at this ⊢
      omega
    · have := pyReplaceGo_length fuel rest old new h
      simp only [List.length_cons]
      omega

theorem pyReplace_length (s old new : Str) (h : old.length ≤ new.length) :
    s.length ≤ (pyReplace s old new).length :=
  pyReplaceGo_length s.length s old new h

theorem splice_length (s mid : Str) (ip : Nat) :
    (s.take ip ++ mid ++ s.drop ip).length = min ip s.length + mid.length + (s.length - ip) := by
  simp [List.length_append, List.length_take, List.length_drop]
  omega

theorem insertImports_length (script : Str) (needed : List Str) :
    script.length ≤ (insertImports script needed).length := by
  unfold insertImports
  split
  · exact le_refl _
  · split
    · split
      · simp only [List.length_append, List.length_take, List.length_drop]
        omega
      · exact le_refl _
    · split
      · simp only [List.length_append, List.length_take, List.length_drop]
        omega
      · simp only [List.length_append]
        omega

theorem pandasFix_length (s : Str) : s.length ≤ (pandasFix s).length := by
  unfold pandasFix
  split
  · exact pyReplace_length _ _ _ (by decide)
  · exact le_refl _

theorem pltFix_length (s : Str) : s.length ≤ (pltFix s).length := by
  unfold pltFix
  split
  · exact pyReplace_length _ _ _ (by decide)
  · exact le_refl _

theorem repairScript_length (s : Str) : s.length ≤ (repairScript s).length := by
  simp only [repairScript]
  have key : ∀ (c1 c2 : Bool),
      s.length ≤ (if c2 = true then (if c1 = true then s else pandasFix s)
        else pltFix (if c1 = true then s else pandasFix s)).length := by
    intro c1 c2
    have hs1 : s.length ≤ (if c1 = true then s else pandasFix s).length := by
      cases c1 <;> simp [pandasFix_length]
    cases c2
    · simpa using le_trans hs1 (pltFix_length _)
    · simpa using hs1
  exact le_trans (key _ _) (insertImports_length _ _)

theorem insertStub_length (stub nm script : Str) (u : Nat)
    (hu : callsNameIdx nm script = some u) :
    script.length + stub.length ≤ (insertStubIntoScript stub nm script).length := by
  simp only [insertStubIntoScript, hu]
  split
  · simp only [List.length_append, List.length_take, List.length_drop, List.length_cons]
    omega
  · split
    · simp only [List.length_append, List.length_take, List.length_drop]
      omega
    · simp only [List.length_append, List.length_take, List.length_drop, List.length_cons]
      omega

set_option maxRecDepth 8192 in
/-- Claim C5 (amended): a nonzero exit whose stderr contains the
`normalize_date` NameError line (the name being called but not defined, and
no regex-error text present) triggers exactly one repair — the date stub
spliced into the script, followed by the import repair — and exactly one
re-execution; a second nonzero exit is terminal, recording the last stderr
lines; the stub lands before the first call site exactly when a
`def`/`import`/`from`/`class` line starts before that call. -/
theorem exec_repair_retry_once (oracle : Str → RunRes) (script : Str)
    (rc : Int) (out err : Str)
    (h1 : oracle script = RunRes.completed rc out err)
    (h2 : rc ≠ 0)
    (h3 : containsSub err errND = true)
    (h4 : findNameError err = some nmND)
    (h5 : (callsNameIdx nmND script).isSome = true)
    (h6 : definesName nmND script = false)
    (h7 : containsSub err (str "re.PatternError") = false)
    (h8 : containsSub (pyLower err) (str "unterminated") = false)
    (h9 : containsSub (pyLower err) (str "bad escape") = false) :
    (executionPhase oracle script).executed = [script, repairScriptErrors script err] ∧
    (∀ rc2 o2 e2, oracle (repairScriptErrors script err) = RunRes.completed rc2 o2 e2 →
      rc2 ≠ 0 → executionPhase oracle script =
        ⟨false, some (last3 err), [script, repairScriptErrors script err]⟩) ∧
    repairScriptErrors script err =
      repairScript (insertStubIntoScript (dateStub nmND) nmND script) ∧
    (∀ u, callsNameIdx nmND script = some u → stubLineEnds (script.take u) ≠ [] →
      ∃ ip, ip ≤ u ∧ insertStubIntoScript (dateStub nmND) nmND script =
        script.take ip ++ dateStub nmND ++ [nl] ++ script.drop ip) := by
  obtain ⟨u, hu⟩ := Option.isSome_iff_exists.mp h5
  have hpick : pickStub nmND = dateStub nmND := rfl
  have hrse : repairScriptErrors script err =
      repairScript (insertStubIntoScript (dateStub nmND) nmND script) := by
    simp only [repairScriptErrors, h4, h5, h6, h7, h8, h9, hpick, Bool.not_false,
      Bool.and_self, Bool.or_self, Bool.or_false, if_true]
    rfl
  have hlt : script.length < (repairScriptErrors script err).length := by
    rw [hrse]
    have ha := insertStub_length (dateStub nmND) nmND script u hu
    have hb := repairScript_length (insertStubIntoScript (dateStub nmND) nmND script)
    have hd : 0 < (dateStub nmND).length := by decide
    omega
  have hne : repairScriptErrors script err ≠ script := by
    intro he
    rw [he] at hlt
    exact lt_irrefl _ hlt
  have herrne : err ≠ [] := containsSub_hay_ne_nil h3 (by decide)
  have hemp : err.isEmpty = false := by
    cases err with
    | nil => exact absurd rfl herrne
    | cons a l => rfl
  have hNE : containsSub err (str "NameError") = true :=
    containsSub_of_pre err (str "NameError") errND h3 (by decide)
  have hb : (!err.isEmpty && (containsSub err (str "NameError") ||
      containsSub err (str "ModuleNotFoundError") ||
      containsSub (pyLower err) (str "undefined"))) = true := by
    rw [hemp, hNE]
    simp
  refine ⟨?_, ?_, hrse, ?_⟩
  · simp only [executionPhase, h1]
    rw [if_neg h2, if_pos hb, if_pos hne]
    cases hor : oracle (repairScriptErrors script err) with
    | completed rc2 o2 e2 =>
      simp only []
      split <;> rfl
    | timedOut => rfl
    | raised m => rfl
  · intro rc2 o2 e2 hor hrc2
    simp only [executionPhase, h1]
    rw [if_neg h2, if_pos hb, if_pos hne, hor]
    simp only []
    rw [if_neg hrc2, hemp]
    rfl
  · intro w hw hwne
    simp only [insertStubIntoScript, hw]
    have hE : (stubLineEnds (script.take w)).isEmpty = false := by
      cases hsl : stubLineEnds (script.take w) with
      | nil => exact absurd hsl hwne
      | cons a l => rfl
    rw [if_pos (by rw [hE]; rfl)]
    refine ⟨(stubLineEnds (script.take w)).foldl max 0, ?_, rfl⟩
    apply foldl_max_le _ w 0 (Nat.zero_le _)
    intro x hx
    have hxle := stubLineEnds_le (script.take w) x hx
    simp only [List.length_take] at hxle
    omega

set_option maxRecDepth 8192 in
/-- Witness for C5: the always-failing oracle on a script calling
`normalize_date` after an import line; the stub is inserted at position 7,
inside the first line and before the call at position 29. -/
theorem exec_repair_retry_once_witness :
    (executionPhase oracleND scriptW).executed = [scriptW, repairScriptErrors scriptW errND] ∧
    executionPhase oracleND scriptW =
      ⟨false, some (last3 errND), [scriptW, repairScriptErrors scriptW errND]⟩ ∧
    repairScriptErrors scriptW errND =
      repairScript (insertStubIntoScript (dateStub nmND) nmND scriptW) ∧
    ∃ ip, ip ≤ 29 ∧ insertStubIntoScript (dateStub nmND) nmND scriptW =
      scriptW.take ip ++ dateStub nmND ++ [nl] ++ scriptW.drop ip := by
  have h := exec_repair_retry_once oracleND scriptW 1 [] errND rfl (by decide)
    (by decide) (by decide) (by decide) (by decide) (by decide) (by decide) (by decide)
  exact ⟨h.1, h.2.1 1 [] errND rfl (by decide), h.2.2.1, h.2.2.2 29 (by decide) (by decide)⟩

set_option maxRecDepth 8192 in
/-- Claim C8 is refuted by the code: on `scriptPF` with synthetic folder
`X`, one application rewrites the input file to an
`os.path.abspath(os.path.join(script_dir, ...))` wrapper, but a second
application rewrites the quoted `data.csv` inside that wrapper again and
then re-wraps the resulting relative path, so fixing twice differs from
fixing once (the path-fixer is not idempotent). -/
theorem fix_paths_not_idempotent :
    fixPathsInScript (some (str "X")) scriptPF =
      str "import os\n\n# Get script directory for relative paths\nscript_dir = os.path.dirname(os.path.abspath(__file__))\nINPUT_FILE = os.path.abspath(os.path.join(script_dir, \u0027../../synthetic/X\u0027, \u0027data.csv\u0027))\n" ∧
    fixPathsInScript (some (str "X")) (fixPathsInScript (some (str "X")) scriptPF) =
      str "import os\n\n# Get script directory for relative paths\nscript_dir = os.path.dirname(os.path.abspath(__file__))\nINPUT_FILE = os.path.abspath(os.path.join(script_dir, \u0027../../synthetic/X\u0027, os.path.abspath(os.path.join(script_dir, \u0027../../synthetic/X\u0027, \u0027data.csv\u0027))))\n" ∧
    fixPathsInScript (some (str "X")) (fixPathsInScript (some (str "X")) scriptPF) ≠
      fixPathsInScript (some (str "X")) scriptPF :=
  ⟨by decide, by decide, by decide⟩

set_option maxRecDepth 8192 in
/-- Claim C9: on the nine-line example posting, the rule-based parser
returns a record with status `Open`, a budget line containing `$50`,
requirements `[Do X]` and deliverables `[File Y]`. -/
theorem parse_job_posting_example :
    (parseJobPosting postingC9).map JobRec.status = some (str "Open") ∧
    (parseJobPosting postingC9).map (fun j => containsSub j.budget (str "$50")) = some true ∧
    (parseJobPosting postingC9).map JobRec.requirements = some [str "Do X"] ∧
    (parseJobPosting postingC9).map JobRec.deliverables = some [str "File Y"] :=
  ⟨by decide, by decide, by decide, by decide⟩
